import Mathlib

/-!
# envconfig: loading a struct from environment variables

A shallow embedding of `envconfig.go` (`LoadFromEnv`, `setFieldValue`) together with the
parts of the Go standard library the two functions call: `reflect` (kinds, settability,
the `Set*` family), `os.Getenv`, `strconv.ParseBool`, `strconv.ParseInt` and
`time.ParseDuration`.

Modelling conventions.

* Go strings are modelled by Lean strings (sequences of code points). Every parser below
  only distinguishes ASCII bytes, and a multi-byte UTF-8 sequence never contains an ASCII
  byte, so reading code points instead of bytes does not change any outcome.
* Machine integers are `Nat`/`Int` with explicit wrap-around.
* Mutation in place is explicit state passing: `setFieldValue` returns the updated field,
  `LoadFromEnv` returns the final state of its argument.
* Floating point is not interpreted: `strconv.ParseFloat` and the one float expression of
  `time.ParseDuration` are fields of `Runtime`, and every theorem holds for every
  `Runtime`.
-/

namespace envconfig

/-! ## reflect -/

/-- The kinds of `reflect.Kind`, in declaration order. -/
inductive Kind
  | invalid | bool | int | int8 | int16 | int32 | int64
  | uint | uint8 | uint16 | uint32 | uint64 | uintptr
  | float32 | float64 | complex64 | complex128
  | array | chan | func | interface | map | ptr | slice | string | struct | unsafePointer
  deriving DecidableEq, Repr

/-- The method `Kind.String()`: the name `%s` prints for a kind. -/
def kindString : Kind → String
  | .invalid => "invalid" | .bool => "bool" | .int => "int" | .int8 => "int8"
  | .int16 => "int16" | .int32 => "int32" | .int64 => "int64"
  | .uint => "uint" | .uint8 => "uint8" | .uint16 => "uint16" | .uint32 => "uint32"
  | .uint64 => "uint64" | .uintptr => "uintptr"
  | .float32 => "float32" | .float64 => "float64"
  | .complex64 => "complex64" | .complex128 => "complex128"
  | .array => "array" | .chan => "chan" | .func => "func" | .interface => "interface"
  | .map => "map" | .ptr => "ptr" | .slice => "slice" | .string => "string"
  | .struct => "struct" | .unsafePointer => "unsafe.Pointer"

/-- The type of a struct field, as far as `setFieldValue` can tell types apart: the type
`time.Duration`, or any other type, of which only the kind matters. -/
inductive GoType
  | basic (k : Kind)
  | Duration
  deriving DecidableEq, Repr

/-- The method `Type.Kind()`; `time.Duration` is an `int64`. -/
def GoType.kind : GoType → Kind
  | .basic k => k
  | .Duration => .int64

/-- The method `Type.Bits()` for the float kinds (the only ones it is called on). -/
def GoType.bits : GoType → Nat
  | .basic .float32 => 32
  | _ => 64

/-- The value a field holds. Integers of every width (and durations) are `int`; a float is
the float64 that `ParseFloat` returned, as an uninterpreted code; `other` stands for the
values of the kinds `setFieldValue` never writes. -/
inductive Value
  | str (s : String)
  | int (n : Int)
  | bool (b : Bool)
  | float (code : Nat)
  | other (code : Nat)
  deriving DecidableEq, Repr

/-- One field of the struct: what `typ.Field(i)` (name, tags, type) and `val.Field(i)`
(settability, current value) give. A tag is `none` when the key is absent from the struct
tag. `CanSet` is false exactly for unexported fields, because the struct is reached
through a pointer and is therefore addressable. -/
structure StructField where
  Name : String
  envTag : Option String
  defaultTag : Option String
  typ : GoType
  CanSet : Bool
  value : Value
  deriving DecidableEq, Repr

/-- The method `StructTag.Get`: the tag's value, or the empty string when the key is absent. -/
def tagGet (tag : Option String) : String := tag.getD ""

/-- The argument of `LoadFromEnv`, an `interface{}`: the nil interface, a non-pointer value
of some kind, a nil pointer, a pointer to a value that is not a struct, or a pointer to a
struct with its fields in declaration order. -/
inductive Config
  | nilInterface
  | value (k : Kind) (notPtr : k ≠ Kind.ptr)
  | nilPointer
  | pointer (k : Kind) (notStruct : k ≠ Kind.struct)
  | structPointer (fields : List StructField)
  deriving DecidableEq

/-- The kind of `reflect.ValueOf(config)`; the zero Value of a nil interface is `invalid`. -/
def Config.kind : Config → Kind
  | .nilInterface => .invalid
  | .value k _ => k
  | .nilPointer => .ptr
  | .pointer _ _ => .ptr
  | .structPointer _ => .ptr

/-- The kind of `val.Elem()` for a pointer; `Elem` of a nil pointer is the zero Value. -/
def Config.elemKind : Config → Kind
  | .pointer k _ => k
  | .structPointer _ => .struct
  | _ => .invalid

/-- The fields of the struct pointed to (none when the argument points to no struct). -/
def Config.fields : Config → List StructField
  | .structPointer fs => fs
  | _ => []

/-- The argument after the pointed-to struct's fields have been overwritten in place. -/
def Config.withFields : Config → List StructField → Config
  | .structPointer _, fs => .structPointer fs
  | c, _ => c

/-! ## os -/

/-- The process environment: the value of each variable that is set. -/
abbrev Environ := String → Option String

/-- The function `os.Getenv`: the value of the variable, empty when it is not set. -/
def Getenv (env : Environ) (key : String) : String := (env key).getD ""

/-- The environment after `os.Setenv(key, value)`. -/
def Setenv (env : Environ) (key value : String) : Environ :=
  fun k => if k = key then some value else env k

/-- The environment after `os.Unsetenv(key)`. -/
def Unsetenv (env : Environ) (key : String) : Environ :=
  fun k => if k = key then none else env k

/-! ## The uninterpreted floating-point primitives -/

/-- What the embedding leaves abstract. `intSize` is the width of `int` on the platform
(`strconv.IntSize`). `ParseFloat s bitSize` is `strconv.ParseFloat`: the code of the
float64 it returns, or `none` for an error. `fracNanos f u scale` is the expression
`uint64(float64(f) * (float64(u) / scale))` of `time.ParseDuration`, where `scale` is the
power of ten `leadingFraction` returns. -/
structure Runtime where
  intSize : Nat
  ParseFloat : String → Nat → Option Nat
  fracNanos : Nat → Nat → Nat → Nat

/-! ## strconv -/

/-- The function `strconv.ParseBool`: `none` stands for its syntax error. -/
def ParseBool (str : String) : Option Bool :=
  if str ∈ ["1", "t", "T", "true", "TRUE", "True"] then some true
  else if str ∈ ["0", "f", "F", "false", "FALSE", "False"] then some false
  else none

/-- The two errors of `strconv.NumError`. -/
inductive NumErr
  | ErrSyntax
  | ErrRange
  deriving DecidableEq, Repr

/-- The helper `lower` of strconv: `c | ('x' - 'X')`. -/
def lower (c : Nat) : Nat := c ||| 32

/-- The digit loop of `strconv.ParseUint` for base 10 (the only base `setFieldValue` asks
for, so the base-prefix and underscore paths, open to base 0 only, are not embedded):
`n` is the value read so far, the result the value and the error. -/
def parseUintLoop (bitSize : Nat) : List Char → Nat → Nat × Option NumErr
  | [], n => (n, none)
  | c :: cs, n =>
    let b := c.toNat
    let maxVal := 2 ^ bitSize - 1
    let cutoff := (2 ^ 64 - 1) / 10 + 1
    if 48 ≤ b ∧ b ≤ 57 ∨ 97 ≤ lower b ∧ lower b ≤ 122 then
      let d := if 48 ≤ b ∧ b ≤ 57 then b - 48 else lower b - 97 + 10
      if d ≥ 10 then (0, some .ErrSyntax)
      else if n ≥ cutoff then (maxVal, some .ErrRange)
      else
        let n10 := n * 10 % 2 ^ 64
        let n1 := (n10 + d) % 2 ^ 64
        if n1 < n10 ∨ n1 > maxVal then (maxVal, some .ErrRange)
        else parseUintLoop bitSize cs n1
    else (0, some .ErrSyntax)

/-- The function `strconv.ParseUint(s, 10, bitSize)`. -/
def ParseUint (s : List Char) (bitSize : Nat) : Nat × Option NumErr :=
  if s = [] then (0, some .ErrSyntax)
  else parseUintLoop bitSize s 0

/-- The function `strconv.ParseInt(s, 10, bitSize)` for `0 < bitSize ≤ 64`: the int64 it
returns and its error. -/
def ParseInt (s : String) (bitSize : Nat) : Int × Option NumErr :=
  match s.data with
  | [] => (0, some .ErrSyntax)
  | c :: rest =>
    let neg := c = '-'
    let digits := if c = '+' ∨ c = '-' then rest else c :: rest
    let (un, err) := ParseUint digits bitSize
    if err = some .ErrSyntax then (0, err)
    else
      let cutoff := 2 ^ (bitSize - 1)
      if ¬ neg ∧ un ≥ cutoff then ((cutoff : Int) - 1, some .ErrRange)
      else if neg ∧ un > cutoff then (-(cutoff : Int), some .ErrRange)
      else (if neg then -(un : Int) else (un : Int), none)

/-! ## time -/

/-- The conversion of an integer to the signed type of `w` bits (two's complement). -/
def wrapInt (w : Nat) (x : Int) : Int :=
  (x + 2 ^ (w - 1)) % 2 ^ w - 2 ^ (w - 1)

/-- The table `unitMap` of package time, in nanoseconds. -/
def unitMap : List (String × Nat) :=
  [("ns", 1), ("us", 1000), ("µs", 1000), ("μs", 1000), ("ms", 1000000),
   ("s", 1000000000), ("m", 60000000000), ("h", 3600000000000)]

/-- The test `c == '.' || '0' <= c && c <= '9'` of `time.ParseDuration`. -/
def isNumChar (c : Char) : Bool := c = '.' ∨ (48 ≤ c.toNat ∧ c.toNat ≤ 57)

/-- The function `leadingInt` of package time: the leading digits' value `x` and the rest,
or `none` for `errLeadingInt` (overflow). -/
def leadingInt : List Char → Nat → Option (Nat × List Char)
  | [], x => some (x, [])
  | c :: cs, x =>
    if c.toNat < 48 ∨ c.toNat > 57 then some (x, c :: cs)
    else if x > 2 ^ 63 / 10 then none
    else
      let x1 := (x * 10 + c.toNat - 48) % 2 ^ 64
      if x1 > 2 ^ 63 then none else leadingInt cs x1

/-- The function `leadingFraction` of package time: the value `x` of the digits kept, how
many were kept (the float `scale` is ten to that power) and the rest. -/
def leadingFraction : List Char → Nat → Nat → Bool → Nat × Nat × List Char
  | [], x, kept, _ => (x, kept, [])
  | c :: cs, x, kept, overflow =>
    if c.toNat < 48 ∨ c.toNat > 57 then (x, kept, c :: cs)
    else if overflow then leadingFraction cs x kept overflow
    else if x > (2 ^ 63 - 1) / 10 then leadingFraction cs x kept true
    else
      let y := (x * 10 + c.toNat - 48) % 2 ^ 64
      if y > 2 ^ 63 then leadingFraction cs x kept true
      else leadingFraction cs y (kept + 1) false

/-- The part `(\.[0-9]*)?` of a round of `time.ParseDuration` on the rest `s1` after the
leading integer: the fraction's digits `f`, how many were kept, the rest, and `post`,
whether a digit was consumed after the period. -/
def fractionPart (s1 : List Char) : Nat × Nat × List Char × Bool :=
  match s1 with
  | '.' :: s1' =>
    let r := leadingFraction s1' 0 0 false
    (r.1, r.2.1, r.2.2, decide (s1'.length ≠ r.2.2.length))
  | _ => (0, 0, s1, false)

/-- The arithmetic of a round of `time.ParseDuration`, in uint64: the component
`v + f/scale` in the unit `unit` is added to the sum `d`; `none` is an overflow. -/
def addComponent (rt : Runtime) (d v f kept unit : Nat) : Option Nat :=
  if v > 2 ^ 63 / unit then none
  else
    let v1 := v * unit % 2 ^ 64
    let v2 := if f > 0 then (v1 + rt.fracNanos f unit kept) % 2 ^ 64 else v1
    if f > 0 ∧ v2 > 2 ^ 63 then none
    else
      let d1 := (d + v2) % 2 ^ 64
      if d1 > 2 ^ 63 then none
      else some d1

/-- One round of the loop `for s != ""` of `time.ParseDuration` on a non-empty rest `s`
with the sum `d` so far: a number, an optional fraction and a unit are consumed; the
result is the rest after the unit and the new sum, `none` an error. -/
def parseDurationRound (rt : Runtime) (s : List Char) (d : Nat) : Option (List Char × Nat) :=
  if ¬ (s.head?.map isNumChar = some true) then none
  else
    match leadingInt s 0 with
    | none => none
    | some (v, s1) =>
      let pre := s.length ≠ s1.length
      let frac := fractionPart s1
      let f := frac.1
      let kept := frac.2.1
      let s2 := frac.2.2.1
      let post := frac.2.2.2
      if ¬ pre ∧ ¬ post then none
      else
        let u := s2.takeWhile (fun c => ¬ isNumChar c)
        let s3 := s2.dropWhile (fun c => ¬ isNumChar c)
        if u = [] then none
        else
          match unitMap.lookup (String.mk u) with
          | none => none
          | some unit =>
            match addComponent rt d v f kept unit with
            | none => none
            | some d1 => some (s3, d1)

/-- The loop `for s != ""` of `time.ParseDuration`: `d` is the sum so far, `none` an error.
Every round consumes at least one character (`parseDurationLoop_fuel`), so a fuel above
the string's length is never used up. -/
def parseDurationLoop (rt : Runtime) : Nat → List Char → Nat → Option Nat
  | 0, _, _ => none
  | fuel + 1, s, d =>
    if s = [] then some d
    else
      match parseDurationRound rt s d with
      | none => none
      | some (s3, d1) => parseDurationLoop rt fuel s3 d1

/-- The function `time.ParseDuration`: the duration in nanoseconds, `none` for an error. -/
def ParseDuration (rt : Runtime) (s : String) : Option Int :=
  let neg := s.data.head? = some '-'
  let s1 := match s.data with
    | c :: rest => if c = '-' ∨ c = '+' then rest else c :: rest
    | [] => []
  if s1 = ['0'] then some 0
  else if s1 = [] then none
  else
    match parseDurationLoop rt (s1.length + 1) s1 0 with
    | none => none
    | some d =>
      if neg then some (wrapInt 64 (-(wrapInt 64 d)))
      else if d > 2 ^ 63 - 1 then none
      else some d

/-! ## envconfig -/

/-- The width of the integer type a field of the given kind stores. -/
def intBits (rt : Runtime) : Kind → Nat
  | .int => rt.intSize
  | .int8 => 8
  | .int16 => 16
  | .int32 => 32
  | _ => 64

/-- The method `Value.SetString`. -/
def StructField.SetString (field : StructField) (x : String) : StructField :=
  { field with value := .str x }

/-- The method `Value.SetInt`: the int64 is converted to the field's own width. -/
def StructField.SetInt (rt : Runtime) (field : StructField) (x : Int) : StructField :=
  { field with value := .int (wrapInt (intBits rt field.typ.kind) x) }

/-- The method `Value.Set` with a `time.Duration`. -/
def StructField.SetDuration (field : StructField) (x : Int) : StructField :=
  { field with value := .int x }

/-- The method `Value.SetBool`. -/
def StructField.SetBool (field : StructField) (x : Bool) : StructField :=
  { field with value := .bool x }

/-- The method `Value.SetFloat`. A float32 field stores `float32(x)`, which is `x` itself
for what `ParseFloat(s, 32)` returns. -/
def StructField.SetFloat (field : StructField) (x : Nat) : StructField :=
  { field with value := .float x }

/-- The function `setFieldValue`: the error message, or the field after the assignment. -/
def setFieldValue (rt : Runtime) (field : StructField) (value : String) :
    Except String StructField :=
  if ¬ field.CanSet then .ok field
  else
    match field.typ.kind with
    | .string => .ok (field.SetString value)
    | .int | .int8 | .int16 | .int32 | .int64 =>
      if field.typ = GoType.Duration then
        match ParseDuration rt value with
        | some duration => .ok (field.SetDuration duration)
        | none => .error ("invalid duration format: " ++ value)
      else
        match ParseInt value 64 with
        | (intVal, none) => .ok (field.SetInt rt intVal)
        | (_, some _) => .error ("invalid integer format: " ++ value)
    | .bool =>
      match ParseBool value with
      | some boolVal => .ok (field.SetBool boolVal)
      | none => .error ("invalid boolean format: " ++ value)
    | .float32 | .float64 =>
      match rt.ParseFloat value field.typ.bits with
      | some floatVal => .ok (field.SetFloat floatVal)
      | none => .error ("invalid float format: " ++ value)
    | k => .error ("unsupported field type: " ++ kindString k)

/-- The string `setFieldValue` is called with: the variable's value, or the `default` tag
when that value is empty. -/
def resolved (env : Environ) (field : StructField) : String :=
  let envValue := Getenv env (tagGet field.envTag)
  if envValue = "" then tagGet field.defaultTag else envValue

/-- What a run of the field loop leaves: the error returned (if any), the fields, and the
keys `os.Getenv` was called with, in order. -/
structure LoopResult where
  err : Option String
  fields : List StructField
  lookups : List String
  deriving DecidableEq, Repr

/-- The loop of `LoadFromEnv` over the fields in declaration order. -/
def bindFields (rt : Runtime) (env : Environ) : List StructField → LoopResult
  | [] => ⟨none, [], []⟩
  | field :: rest =>
    if tagGet field.envTag = "" then
      let r := bindFields rt env rest
      ⟨r.err, field :: r.fields, r.lookups⟩
    else
      match setFieldValue rt field (resolved env field) with
      | .error err =>
        ⟨some ("error setting field " ++ field.Name ++ ": " ++ err), field :: rest,
          [tagGet field.envTag]⟩
      | .ok field1 =>
        let r := bindFields rt env rest
        ⟨r.err, field1 :: r.fields, tagGet field.envTag :: r.lookups⟩

/-- What a call of `LoadFromEnv` leaves: the error returned (`none` for nil), the argument
after the call, and the keys `os.Getenv` was called with, in order. -/
structure Outcome where
  err : Option String
  config : Config
  lookups : List String
  deriving DecidableEq

/-- The function `LoadFromEnv`. -/
def LoadFromEnv (rt : Runtime) (env : Environ) (config : Config) : Outcome :=
  if config.kind ≠ Kind.ptr then
    ⟨some "config must be a pointer to a struct", config, []⟩
  else if config.elemKind ≠ Kind.struct then
    ⟨some "config must be a pointer to a struct", config, []⟩
  else
    let r := bindFields rt env config.fields
    ⟨r.err, config.withFields r.fields, r.lookups⟩

/-- A runtime for the closed examples, which have no float field and no fractional
duration: on those its float primitives are never consulted. The platform is a 64-bit
one. -/
def rt64 : Runtime := ⟨64, fun _ _ => none, fun _ _ _ => 0⟩

/-- The value `setFieldValue` computes from a string for a field of the given type: `none`
when the parser of the type's kind rejects the string or the kind is unsupported. -/
def coerce (rt : Runtime) (typ : GoType) (value : String) : Option Value :=
  match typ.kind with
  | .string => some (.str value)
  | .int | .int8 | .int16 | .int32 | .int64 =>
    if typ = GoType.Duration then (ParseDuration rt value).map Value.int
    else
      match ParseInt value 64 with
      | (intVal, none) => some (.int (wrapInt (intBits rt typ.kind) intVal))
      | (_, some _) => none
  | .bool => (ParseBool value).map Value.bool
  | .float32 | .float64 => (rt.ParseFloat value typ.bits).map Value.float
  | _ => none

/-- The kinds `setFieldValue` has a case for. -/
def supportedKind : Kind → Bool
  | .string | .int | .int8 | .int16 | .int32 | .int64 | .bool | .float32 | .float64 => true
  | _ => false

/-- The field carries an environment key: its `env` tag is present and not empty. -/
def StructField.bindable (field : StructField) : Bool := tagGet field.envTag ≠ ""

/-- The reason text `setFieldValue` puts in its error for a field of the given type. -/
def failureReason (typ : GoType) : String :=
  match typ.kind with
  | .int | .int8 | .int16 | .int32 | .int64 =>
    if typ = GoType.Duration then "invalid duration format" else "invalid integer format"
  | .bool => "invalid boolean format"
  | .float32 | .float64 => "invalid float format"
  | _ => "unsupported field type"

/-- Case folding of a string: every letter replaced by its lower-case form. -/
def caseFold (s : String) : String := String.mk (s.data.map Char.toLower)

/-- What a field is after a call of `LoadFromEnv` that returns no error: a field without
an environment key, or one that cannot be set, is as it was; any other field holds the
coercion of its resolved string. It depends on the field itself and the environment only. -/
def boundField (rt : Runtime) (env : Environ) (f : StructField) : StructField :=
  if f.bindable = true ∧ f.CanSet = true then
    match coerce rt f.typ (resolved env f) with
    | some v => { f with value := v }
    | none => f
  else f

/-- The parser for the kind of the type accepts the string. A string field takes every
string; a signed integer goes to `strconv.ParseInt`, except that the type `time.Duration`
goes to `time.ParseDuration`; a boolean goes to `strconv.ParseBool` and a float to
`strconv.ParseFloat` with the type's bit size. The other kinds have no parser. -/
def parserAccepts (rt : Runtime) (typ : GoType) (s : String) : Bool :=
  match typ.kind with
  | .string => true
  | .int | .int8 | .int16 | .int32 | .int64 =>
    if typ = GoType.Duration then (ParseDuration rt s).isSome
    else decide ((ParseInt s 64).2 = none)
  | .bool => (ParseBool s).isSome
  | .float32 | .float64 => (rt.ParseFloat s typ.bits).isSome
  | _ => false

/-- The signed-integer kinds, those of the second case of `setFieldValue`. -/
def signedIntKind : Kind → Bool
  | .int | .int8 | .int16 | .int32 | .int64 => true
  | _ => false

/-- The character is a decimal digit. -/
def isDigit (c : Char) : Bool := 48 ≤ c.toNat ∧ c.toNat ≤ 57

/-- The number a string of decimal digits denotes. -/
def decimalValue (ds : List Char) : Nat := ds.foldl (fun x c => x * 10 + (c.toNat - 48)) 0

/-- A duration literal without fractions as the list of its number-unit components, each
the digits of the number and the unit: the text of the literal. -/
def renderComponents : List (List Char × String) → List Char
  | [] => []
  | (ds, u) :: rest => ds ++ u.data ++ renderComponents rest

/-- The sum of the number-unit components, in nanoseconds (a unit outside `unitMap`
counts for nothing; `wellFormedComponents` excludes it). -/
def componentsNanos : List (List Char × String) → Nat
  | [] => 0
  | (ds, u) :: rest => decimalValue ds * (unitMap.lookup u).getD 0 + componentsNanos rest

/-- Every component has at least one digit, only digits, and a unit of `unitMap`. -/
def wellFormedComponents (cs : List (List Char × String)) : Bool :=
  cs.all fun c => decide (c.1 ≠ []) && c.1.all isDigit && (unitMap.lookup c.2).isSome

/-- The integer a decimal literal denotes: the digits' number, negated after the sign `-`. -/
def literalValue (sign ds : List Char) : Int :=
  if sign = ['-'] then -(decimalValue ds : Int) else (decimalValue ds : Int)

/-- The integer fits the signed integer type of `w` bits. -/
def fitsWidth (w : Nat) (n : Int) : Bool :=
  decide (0 < w ∧ -(2 : Int) ^ (w - 1) ≤ n ∧ n < (2 : Int) ^ (w - 1))

/-- The value a string denotes in a type by the coercion table: the string itself, the
integer `strconv.ParseInt` reads (for `time.Duration` the duration `time.ParseDuration`
reads), the boolean `strconv.ParseBool` reads, the float `strconv.ParseFloat` reads;
`none` when the parser rejects the string or the kind is unsupported. No conversion to the
field's width is part of it. -/
def tableValue (rt : Runtime) (typ : GoType) (value : String) : Option Value :=
  match typ.kind with
  | .string => some (.str value)
  | .int | .int8 | .int16 | .int32 | .int64 =>
    if typ = GoType.Duration then (ParseDuration rt value).map Value.int
    else
      match ParseInt value 64 with
      | (intVal, none) => some (.int intVal)
      | (_, some _) => none
  | .bool => (ParseBool value).map Value.bool
  | .float32 | .float64 => (rt.ParseFloat value typ.bits).map Value.float
  | _ => none

/-- The duration a signed literal of number-unit components denotes, in nanoseconds: the
sum of the components, negated after the sign `-`. -/
def signedNanos (sign : List Char) (cs : List (List Char × String)) : Int :=
  if sign = ['-'] then -(componentsNanos cs : Int) else (componentsNanos cs : Int)

/-! ## Example inputs -/

/-- A record with a field that carries only a `default` tag, after a field that fails. -/
def exC1 : Config :=
  .structPointer
    [⟨"Port", some "PORT", none, .basic .int, true, .int 8080⟩,
     ⟨"Label", none, some "fallback", .basic .string, true, .str "mine"⟩]

/-- An environment in which no variable is set. -/
def envNone : Environ := fun _ => none

/-- An unexported string field with a default, its variable unset. -/
def exC2a : Config :=
  .structPointer [⟨"secret", some "SECRET", some "guest", .basic .string, false, .str "init"⟩]

/-- An integer field, then a string field with a default. -/
def exC2b : Config :=
  .structPointer
    [⟨"Port", some "PORT", some "8080", .basic .int, true, .int 1⟩,
     ⟨"Host", some "HOST", some "localhost", .basic .string, true, .str "init"⟩]

/-- The environment `PORT=abc`. -/
def envPortAbc : Environ := fun k => if k = "PORT" then some "abc" else none

/-- A settable string field with a default. -/
def exC4a : Config :=
  .structPointer [⟨"Host", some "HOST", some "localhost", .basic .string, true, .str "init"⟩]

/-- An unexported string field. -/
def exC4b : Config :=
  .structPointer [⟨"host", some "HOST", some "localhost", .basic .string, false, .str "init"⟩]

/-- The environment in which `HOST` is set to the empty string. -/
def envHostEmpty : Environ := fun k => if k = "HOST" then some "" else none

/-- The environment `HOST=example.org`. -/
def envHost : Environ := fun k => if k = "HOST" then some "example.org" else none

/-- A string field, an integer field, a string field. -/
def exC5 : List StructField :=
  [⟨"Host", some "HOST", some "localhost", .basic .string, true, .str "init"⟩,
   ⟨"Port", some "PORT", some "8080", .basic .int, true, .int 1⟩,
   ⟨"Name", some "NAME", some "svc", .basic .string, true, .str "old"⟩]

/-- The environment `HOST=example.org`, `PORT=abc`. -/
def envHostPortAbc : Environ :=
  fun k => if k = "HOST" then some "example.org" else if k = "PORT" then some "abc" else none

/-- An unexported field of struct kind with an environment key. -/
def exC7 : Config :=
  .structPointer [⟨"inner", some "INNER", none, .basic .struct, false, .other 0⟩]

/-- An exported field of struct kind with an environment key. -/
def exC7ok : StructField := ⟨"Inner", some "INNER", none, .basic .struct, true, .other 0⟩

/-- An unexported integer field between two string fields. -/
def exC8 : StructField := ⟨"port", some "PORT", some "8080", .basic .int, false, .int 1⟩

/-- An exported field of struct kind whose variable is set. -/
def exC9 : Config :=
  .structPointer [⟨"Nested", some "NESTED", none, .basic .struct, true, .other 0⟩]

/-- The environment `NESTED=abc`. -/
def envNestedAbc : Environ := fun k => if k = "NESTED" then some "abc" else none

/-- A settable boolean field. -/
def exC10 : StructField := ⟨"Debug", some "DEBUG", none, .basic .bool, true, .bool false⟩

/-- The environment `DEBUG=tRuE`. -/
def envDebugMixed : Environ := fun k => if k = "DEBUG" then some "tRuE" else none

/-- The environment `DEBUG=TRUE`. -/
def envDebugUpper : Environ := fun k => if k = "DEBUG" then some "TRUE" else none

/-- Two settable integer fields with an environment key and no default. -/
def exC17 : List StructField :=
  [⟨"Port", some "PORT", none, .basic .int, true, .int 1⟩,
   ⟨"Workers", some "WORKERS", none, .basic .int, true, .int 2⟩]

/-- A settable float field with an environment key and an empty default. -/
def exC17float : StructField :=
  ⟨"Ratio", some "RATE", some "", .basic .float64, true, .float 0⟩

/-- A settable duration field. -/
def exTimeout : StructField :=
  ⟨"Timeout", some "TIMEOUT", some "1s", .Duration, true, .int 5⟩

/-- A settable field of kind int32 that is no duration. -/
def exRetries : StructField :=
  ⟨"Retries", some "RETRIES", some "3", .basic .int32, true, .int 7⟩

/-- The environment `TIMEOUT=300`, `RETRIES=300ms`. -/
def envC14 : Environ :=
  fun k => if k = "TIMEOUT" then some "300" else if k = "RETRIES" then some "300ms" else none

/-- The environment `TIMEOUT=2h30m`. -/
def envTimeout : Environ := fun k => if k = "TIMEOUT" then some "2h30m" else none

/-- A settable field of kind int8. -/
def exLevel : StructField := ⟨"Level", some "LEVEL", none, .basic .int8, true, .int 0⟩

/-- The environment `LEVEL=300`. -/
def envLevel : Environ := fun k => if k = "LEVEL" then some "300" else none

/-- A settable int8 field whose default is `300`. -/
def exC2c : Config :=
  .structPointer [⟨"Level", some "LEVEL", some "300", .basic .int8, true, .int 0⟩]

/-- A settable duration field with the default `1s` and no environment key. -/
def exTimeoutNoKey : StructField := ⟨"Timeout", none, some "1s", .Duration, true, .int 5⟩

/-- An integer field, then the duration field `Timeout`. -/
def exPortTimeout : List StructField :=
  [⟨"Port", some "PORT", some "8080", .basic .int, true, .int 1⟩, exTimeout]

/-- The environment `TIMEOUT=9223372036854775808ns`, a duration of `2 ^ 63` nanoseconds. -/
def envTimeoutOverflow : Environ :=
  fun k => if k = "TIMEOUT" then some "9223372036854775808ns" else none

/-- The environment `PORT=abc`, `TIMEOUT=300`. -/
def envPortAbcTimeout300 : Environ :=
  fun k => if k = "PORT" then some "abc" else if k = "TIMEOUT" then some "300" else none

/-- A settable duration field with the default `300` and no environment key. -/
def exTimeout300NoKey : StructField :=
  ⟨"Timeout", none, some "300", .Duration, true, .int 5⟩

/-- The environment `RETRIES=0`. -/
def envRetriesZero : Environ := fun k => if k = "RETRIES" then some "0" else none

/-! ## Lemmas on `setFieldValue` and the field loop -/

theorem setFieldValue_not_CanSet (rt : Runtime) (field : StructField) (value : String)
    (h : field.CanSet = false) : setFieldValue rt field value = .ok field := by
  simp [setFieldValue, h]

theorem bindFields_nil (rt : Runtime) (env : Environ) :
    bindFields rt env [] = ⟨none, [], []⟩ := rfl

theorem bindFields_cons_skip (rt : Runtime) (env : Environ) (field : StructField)
    (rest : List StructField) (h : tagGet field.envTag = "") :
    bindFields rt env (field :: rest) =
      ⟨(bindFields rt env rest).err, field :: (bindFields rt env rest).fields,
        (bindFields rt env rest).lookups⟩ := by
  simp [bindFields, h]

theorem bindFields_cons_error (rt : Runtime) (env : Environ) (field : StructField)
    (rest : List StructField) (msg : String) (h : tagGet field.envTag ≠ "")
    (hs : setFieldValue rt field (resolved env field) = .error msg) :
    bindFields rt env (field :: rest) =
      ⟨some ("error setting field " ++ field.Name ++ ": " ++ msg), field :: rest,
        [tagGet field.envTag]⟩ := by
  simp [bindFields, h, hs]

theorem bindFields_cons_ok (rt : Runtime) (env : Environ) (field field1 : StructField)
    (rest : List StructField) (h : tagGet field.envTag ≠ "")
    (hs : setFieldValue rt field (resolved env field) = .ok field1) :
    bindFields rt env (field :: rest) =
      ⟨(bindFields rt env rest).err, field1 :: (bindFields rt env rest).fields,
        tagGet field.envTag :: (bindFields rt env rest).lookups⟩ := by
  simp [bindFields, h, hs]

/-- The loop neither adds nor drops a field. -/
theorem bindFields_length (rt : Runtime) (env : Environ) (fields : List StructField) :
    (bindFields rt env fields).fields.length = fields.length := by
  induction fields with
  | nil => rfl
  | cons field rest ih =>
    by_cases h : tagGet field.envTag = ""
    · rw [bindFields_cons_skip rt env field rest h]; simp [ih]
    · cases hs : setFieldValue rt field (resolved env field) with
      | error msg => rw [bindFields_cons_error rt env field rest msg h hs]
      | ok field1 => rw [bindFields_cons_ok rt env field field1 rest h hs]; simp [ih]

/-- A prefix the loop passes without error is processed on its own, and the loop goes on
with what follows it. -/
theorem bindFields_append (rt : Runtime) (env : Environ) (pre post : List StructField)
    (h : (bindFields rt env pre).err = none) :
    bindFields rt env (pre ++ post) =
      ⟨(bindFields rt env post).err,
        (bindFields rt env pre).fields ++ (bindFields rt env post).fields,
        (bindFields rt env pre).lookups ++ (bindFields rt env post).lookups⟩ := by
  induction pre with
  | nil => simp [bindFields_nil]
  | cons field rest ih =>
    by_cases hk : tagGet field.envTag = ""
    · rw [bindFields_cons_skip rt env field rest hk] at h
      simp only [List.cons_append]
      rw [bindFields_cons_skip rt env field _ hk, bindFields_cons_skip rt env field rest hk,
        ih h]
      simp
    · cases hs : setFieldValue rt field (resolved env field) with
      | error msg =>
        rw [bindFields_cons_error rt env field rest msg hk hs] at h
        simp at h
      | ok field1 =>
        rw [bindFields_cons_ok rt env field field1 rest hk hs] at h
        simp only [List.cons_append]
        rw [bindFields_cons_ok rt env field field1 _ hk hs,
          bindFields_cons_ok rt env field field1 rest hk hs, ih h]
        simp

/-- On a pointer to a struct `LoadFromEnv` is the field loop. -/
theorem LoadFromEnv_structPointer (rt : Runtime) (env : Environ)
    (fields : List StructField) :
    LoadFromEnv rt env (.structPointer fields) =
      ⟨(bindFields rt env fields).err, .structPointer (bindFields rt env fields).fields,
        (bindFields rt env fields).lookups⟩ := by
  simp [LoadFromEnv, Config.kind, Config.elemKind, Config.fields, Config.withFields]

/-- A field without an environment key keeps its place and its contents in the loop. -/
theorem bindFields_untagged (rt : Runtime) (env : Environ) (fields : List StructField)
    (i : Nat) (f : StructField) (hf : fields[i]? = some f) (hkey : tagGet f.envTag = "") :
    (bindFields rt env fields).fields[i]? = some f := by
  induction fields generalizing i with
  | nil => simp at hf
  | cons field rest ih =>
    by_cases h : tagGet field.envTag = ""
    · rw [bindFields_cons_skip rt env field rest h]
      cases i with
      | zero => simpa using hf
      | succ j => simpa using ih j (by simpa using hf)
    · cases hs : setFieldValue rt field (resolved env field) with
      | error msg => rw [bindFields_cons_error rt env field rest msg h hs]; exact hf
      | ok field1 =>
        rw [bindFields_cons_ok rt env field field1 rest h hs]
        cases i with
        | zero =>
          simp at hf
          subst hf
          exact absurd hkey h
        | succ j => simpa using ih j (by simpa using hf)

/-! ## The fuel of `parseDurationLoop` -/

theorem leadingInt_length (s : List Char) (x v : Nat) (s1 : List Char)
    (h : leadingInt s x = some (v, s1)) : s1.length ≤ s.length := by
  induction s generalizing x with
  | nil =>
    simp only [leadingInt, Option.some.injEq, Prod.mk.injEq] at h
    rw [← h.2]
  | cons c cs ih =>
    simp only [leadingInt] at h
    split at h
    · simp only [Option.some.injEq, Prod.mk.injEq] at h
      rw [← h.2]
    · split at h
      · cases h
      · split at h
        · cases h
        · exact Nat.le_succ_of_le (ih _ h)

theorem leadingFraction_length (s : List Char) (x kept : Nat) (overflow : Bool) :
    (leadingFraction s x kept overflow).2.2.length ≤ s.length := by
  induction s generalizing x kept overflow with
  | nil => simp [leadingFraction]
  | cons c cs ih =>
    simp only [leadingFraction]
    split
    · simp
    · split
      · exact Nat.le_succ_of_le (ih _ _ _)
      · split
        · exact Nat.le_succ_of_le (ih _ _ _)
        · split
          · exact Nat.le_succ_of_le (ih _ _ _)
          · exact Nat.le_succ_of_le (ih _ _ _)

theorem dropWhile_length_lt (p : Char → Bool) (l : List Char) (h : l.takeWhile p ≠ []) :
    (l.dropWhile p).length < l.length := by
  have h1 := congrArg List.length (List.takeWhile_append_dropWhile p l)
  rw [List.length_append] at h1
  have h2 : 0 < (l.takeWhile p).length := List.length_pos.mpr h
  omega

theorem fractionPart_length (s1 : List Char) :
    (fractionPart s1).2.2.1.length ≤ s1.length := by
  unfold fractionPart
  split
  · rename_i s1'
    exact Nat.le_succ_of_le (leadingFraction_length s1' 0 0 false)
  · exact Nat.le_refl _

/-- A round of the duration loop consumes at least one character. -/
theorem parseDurationRound_length (rt : Runtime) (s : List Char) (d : Nat)
    (s3 : List Char) (d1 : Nat) (h : parseDurationRound rt s d = some (s3, d1)) :
    s3.length < s.length := by
  unfold parseDurationRound at h
  split at h
  · cases h
  · split at h
    · cases h
    · rename_i v s1 hli
      have h1 := leadingInt_length s 0 v s1 hli
      have h2 := fractionPart_length s1
      simp only at h
      split at h
      · cases h
      · split at h
        · cases h
        · rename_i hu
          have h3 := dropWhile_length_lt _ _ hu
          split at h
          · cases h
          · split at h
            · cases h
            · simp only [Option.some.injEq, Prod.mk.injEq] at h
              rw [← h.1]
              omega

/-- The duration loop does not depend on its fuel once the fuel exceeds the length of the
string: it never stops for lack of fuel. -/
theorem parseDurationLoop_fuel (rt : Runtime) (fuel1 fuel2 : Nat) (s : List Char) (d : Nat)
    (h1 : s.length < fuel1) (h2 : s.length < fuel2) :
    parseDurationLoop rt fuel1 s d = parseDurationLoop rt fuel2 s d := by
  induction fuel1 generalizing fuel2 s d with
  | zero => omega
  | succ n ih =>
    cases fuel2 with
    | zero => omega
    | succ m =>
      simp only [parseDurationLoop]
      split
      · rfl
      · cases hr : parseDurationRound rt s d with
        | none => rfl
        | some r =>
          obtain ⟨s3, d3⟩ := r
          have hlt := parseDurationRound_length rt s d s3 d3 hr
          exact ih m s3 d3 (by omega) (by omega)

/-! ## C1 -/

/-- C1: for every argument and environment, a field whose `env` tag is absent or empty
(whatever its `default` tag) is, after `LoadFromEnv`, exactly what it was before, whether
the call returns an error or not. -/
theorem C1_untagged_field_unchanged (rt : Runtime) (env : Environ) (config : Config)
    (i : Nat) (f : StructField) (hf : config.fields[i]? = some f)
    (hkey : f.envTag = none ∨ f.envTag = some "") :
    (LoadFromEnv rt env config).config.fields[i]? = some f := by
  have hk : tagGet f.envTag = "" := by
    rcases hkey with h | h <;> simp [tagGet, h]
  cases config with
  | structPointer fields =>
    rw [LoadFromEnv_structPointer]
    exact bindFields_untagged rt env fields i f hf hk
  | nilInterface => simp [Config.fields] at hf
  | value k hk => simp [Config.fields] at hf
  | nilPointer => simp [Config.fields] at hf
  | pointer k hk => simp [Config.fields] at hf

/-- C1 at a record whose first field fails (`PORT=abc`) and whose second field has only a
`default` tag: the call errs and the second field is untouched. -/
theorem C1_untagged_field_unchanged_witness :
    (LoadFromEnv rt64 (fun k => if k = "PORT" then some "abc" else none) exC1).err ≠ none ∧
    (LoadFromEnv rt64 (fun k => if k = "PORT" then some "abc" else none)
        exC1).config.fields[1]? =
      some ⟨"Label", none, some "fallback", .basic .string, true, .str "mine"⟩ :=
  ⟨by decide, C1_untagged_field_unchanged rt64 _ exC1 1 _ (by decide) (Or.inl rfl)⟩

/-! ## C3 -/

theorem Getenv_Unsetenv_eq_Setenv_empty (env : Environ) (K key : String) :
    Getenv (Unsetenv env K) key = Getenv (Setenv env K "") key := by
  unfold Getenv Unsetenv Setenv
  by_cases h : key = K <;> simp [h]

theorem resolved_congr (env1 env2 : Environ) (field : StructField)
    (h : ∀ key, Getenv env1 key = Getenv env2 key) :
    resolved env1 field = resolved env2 field := by
  simp [resolved, h]

/-- The loop sees the environment only through `os.Getenv`. -/
theorem bindFields_congr (rt : Runtime) (env1 env2 : Environ)
    (h : ∀ key, Getenv env1 key = Getenv env2 key) (fields : List StructField) :
    bindFields rt env1 fields = bindFields rt env2 fields := by
  induction fields with
  | nil => rfl
  | cons field rest ih =>
    simp only [bindFields, ih, resolved_congr env1 env2 field h]

/-- C3: for every argument, environment and key `K`, `LoadFromEnv` has the same outcome
(error, final state of the argument, lookups) when `K` is unset as when `K` is set to the
empty string. -/
theorem C3_empty_value_same_as_unset (rt : Runtime) (env : Environ) (config : Config)
    (K : String) :
    LoadFromEnv rt (Unsetenv env K) config = LoadFromEnv rt (Setenv env K "") config := by
  simp only [LoadFromEnv,
    bindFields_congr rt _ _ (Getenv_Unsetenv_eq_Setenv_empty env K) config.fields]

/-! ## C6 -/

/-- C6: for every argument that is not a pointer to a struct, `LoadFromEnv` returns the
error "config must be a pointer to a struct", leaves the argument as it was and looks up
no environment variable. -/
theorem C6_invalid_target (rt : Runtime) (env : Environ) (config : Config)
    (h : ∀ fields, config ≠ .structPointer fields) :
    LoadFromEnv rt env config =
      ⟨some "config must be a pointer to a struct", config, []⟩ := by
  cases config with
  | structPointer fields => exact absurd rfl (h fields)
  | nilInterface => simp [LoadFromEnv, Config.kind]
  | value k hk => simp [LoadFromEnv, Config.kind, hk]
  | nilPointer => simp [LoadFromEnv, Config.kind, Config.elemKind]
  | pointer k hk => simp [LoadFromEnv, Config.kind, Config.elemKind, hk]

/-- C6 at a struct passed by value. -/
theorem C6_invalid_target_witness :
    (∀ fields, Config.value .struct (by decide) ≠ .structPointer fields) ∧
    LoadFromEnv rt64 (fun _ => some "x") (.value .struct (by decide)) =
      ⟨some "config must be a pointer to a struct", .value .struct (by decide), []⟩ :=
  ⟨fun _ h => Config.noConfusion h,
    C6_invalid_target rt64 _ _ (fun _ h => Config.noConfusion h)⟩

/-! ## More lemmas on the loop -/

/-- Only a settable field can raise an error. -/
theorem setFieldValue_error_CanSet (rt : Runtime) (field : StructField) (value msg : String)
    (h : setFieldValue rt field value = .error msg) : field.CanSet = true := by
  by_contra hc
  rw [setFieldValue_not_CanSet rt field value (by simpa using hc)] at h
  cases h

/-- A successful assignment to a settable field stores the coerced string and changes
nothing else of the field. -/
theorem setFieldValue_ok_coerce (rt : Runtime) (field field1 : StructField)
    (value : String) (hc : field.CanSet = true)
    (h : setFieldValue rt field value = .ok field1) :
    ∃ v, coerce rt field.typ value = some v ∧ field1 = { field with value := v } := by
  simp only [setFieldValue, hc, not_true_eq_false, if_false] at h
  unfold coerce
  cases hk : field.typ.kind <;> simp only [hk] at h ⊢ <;> (try split at h) <;>
    (try split at h) <;>
    simp_all [StructField.SetString, StructField.SetInt, StructField.SetDuration,
      StructField.SetBool, StructField.SetFloat]

/-- When the loop returns no error, every field with an environment key was assigned
without error and holds the result. -/
theorem bindFields_ok_get (rt : Runtime) (env : Environ) (fields : List StructField)
    (h : (bindFields rt env fields).err = none) (i : Nat) (f : StructField)
    (hf : fields[i]? = some f) (hkey : tagGet f.envTag ≠ "") :
    ∃ f1, setFieldValue rt f (resolved env f) = .ok f1 ∧
      (bindFields rt env fields).fields[i]? = some f1 := by
  induction fields generalizing i with
  | nil => simp at hf
  | cons field rest ih =>
    by_cases hk : tagGet field.envTag = ""
    · rw [bindFields_cons_skip rt env field rest hk] at h ⊢
      cases i with
      | zero =>
        simp at hf
        subst hf
        exact absurd hk hkey
      | succ j => simpa using ih h j (by simpa using hf)
    · cases hs : setFieldValue rt field (resolved env field) with
      | error msg =>
        rw [bindFields_cons_error rt env field rest msg hk hs] at h
        simp at h
      | ok field1 =>
        rw [bindFields_cons_ok rt env field field1 rest hk hs] at h ⊢
        cases i with
        | zero =>
          simp at hf
          subst hf
          exact ⟨field1, hs, by simp⟩
        | succ j => simpa using ih h j (by simpa using hf)

/-- An error of the loop comes from the first field with an environment key whose
assignment fails: the fields before it pass without error. -/
theorem bindFields_err_split (rt : Runtime) (env : Environ) (fields : List StructField)
    (e : String) (h : (bindFields rt env fields).err = some e) :
    ∃ pre f post msg, fields = pre ++ f :: post ∧ (bindFields rt env pre).err = none ∧
      tagGet f.envTag ≠ "" ∧ setFieldValue rt f (resolved env f) = .error msg ∧
      e = "error setting field " ++ f.Name ++ ": " ++ msg := by
  induction fields with
  | nil => simp [bindFields_nil] at h
  | cons field rest ih =>
    by_cases hk : tagGet field.envTag = ""
    · rw [bindFields_cons_skip rt env field rest hk] at h
      obtain ⟨pre, f, post, msg, h1, h2, h3, h4, h5⟩ := ih h
      refine ⟨field :: pre, f, post, msg, by simp [h1], ?_, h3, h4, h5⟩
      rw [bindFields_cons_skip rt env field pre hk]
      exact h2
    · cases hs : setFieldValue rt field (resolved env field) with
      | error msg =>
        rw [bindFields_cons_error rt env field rest msg hk hs] at h
        refine ⟨[], field, rest, msg, rfl, rfl, hk, hs, ?_⟩
        simpa using h.symm
      | ok field1 =>
        rw [bindFields_cons_ok rt env field field1 rest hk hs] at h
        obtain ⟨pre, f, post, msg, h1, h2, h3, h4, h5⟩ := ih h
        refine ⟨field :: pre, f, post, msg, by simp [h1], ?_, h3, h4, h5⟩
        rw [bindFields_cons_ok rt env field field1 pre hk hs]
        exact h2

/-- The loop on a record whose field `f` fails after the prefix `pre` passed. -/
theorem bindFields_append_error (rt : Runtime) (env : Environ) (pre post : List StructField)
    (f : StructField) (msg : String) (hpre : (bindFields rt env pre).err = none)
    (hk : tagGet f.envTag ≠ "") (hs : setFieldValue rt f (resolved env f) = .error msg) :
    bindFields rt env (pre ++ f :: post) =
      ⟨some ("error setting field " ++ f.Name ++ ": " ++ msg),
        (bindFields rt env pre).fields ++ f :: post,
        (bindFields rt env pre).lookups ++ [tagGet f.envTag]⟩ := by
  rw [bindFields_append rt env pre (f :: post) hpre,
    bindFields_cons_error rt env f post msg hk hs]

/-- The resolved string of a field whose variable is unset or empty is its default. -/
theorem resolved_default (env : Environ) (f : StructField)
    (henv : env (tagGet f.envTag) = none ∨ env (tagGet f.envTag) = some "") :
    resolved env f = tagGet f.defaultTag := by
  rcases henv with h | h <;> simp [resolved, Getenv, h]

/-- The resolved string of a field whose variable is set to a non-empty value is that value. -/
theorem resolved_set (env : Environ) (f : StructField) (v : String)
    (henv : env (tagGet f.envTag) = some v) (hv : v ≠ "") : resolved env f = v := by
  simp [resolved, Getenv, henv, hv]

/-! ## C2 -/

/-- The conversion to a width leaves an integer that fits the width as it is. -/
theorem wrapInt_of_fits (w : Nat) (n : Int) (h : fitsWidth w n = true) : wrapInt w n = n := by
  simp only [fitsWidth, decide_eq_true_eq] at h
  obtain ⟨hw, hlo, hhi⟩ := h
  obtain ⟨k, rfl⟩ : ∃ k, w = k + 1 := ⟨w - 1, by omega⟩
  simp only [Nat.add_sub_cancel] at hlo hhi
  unfold wrapInt
  simp only [Nat.add_sub_cancel]
  have hp : (2 : Int) ^ (k + 1) = 2 * 2 ^ k := by ring
  rw [hp]
  generalize (2 : Int) ^ k = p at *
  rw [Int.emod_eq_of_lt (by omega) (by omega)]
  omega

/-- What the code stores is the value of the coercion table whenever the integer read for
a signed-integer field fits the field's width. -/
theorem coerce_tableValue (rt : Runtime) (typ : GoType) (value : String) (v : Value)
    (h : coerce rt typ value = some v)
    (hfit : ∀ n : Int, signedIntKind typ.kind = true → typ ≠ .Duration →
      ParseInt value 64 = (n, none) → fitsWidth (intBits rt typ.kind) n = true) :
    tableValue rt typ value = some v := by
  have hint : signedIntKind typ.kind = true →
      (if typ = GoType.Duration then (ParseDuration rt value).map Value.int
        else
          match ParseInt value 64 with
          | (intVal, none) => some (Value.int (wrapInt (intBits rt typ.kind) intVal))
          | (_, some _) => none) = some v →
      (if typ = GoType.Duration then (ParseDuration rt value).map Value.int
        else
          match ParseInt value 64 with
          | (intVal, none) => some (Value.int intVal)
          | (_, some _) => none) = some v := by
    intro hk hc
    by_cases ht : typ = GoType.Duration
    · rw [if_pos ht] at hc ⊢
      exact hc
    · rw [if_neg ht] at hc ⊢
      rcases hp : ParseInt value 64 with ⟨n, e⟩
      rw [hp] at hc
      cases e with
      | some e => simp at hc
      | none =>
        simp only at hc ⊢
        rw [wrapInt_of_fits _ n (hfit n hk ht hp)] at hc
        exact hc
  unfold coerce at h
  unfold tableValue
  cases hk : typ.kind <;> simp only [hk] at h hint ⊢ <;>
    first
    | exact h
    | exact hint rfl h

/-- C2 fails as stated: an unexported field keeps its value instead of taking its default
(`exC2a`), and so does a field after one that fails (`exC2b` with `PORT=abc`), although in
both the variable is unset and the default coerces; and an int8 field whose default is
`300`, an integer outside the field's width, ends at 44 (`exC2c`). -/
theorem C2_counterexample :
    (exC2a.fields[0]?.map StructField.bindable = some true ∧ envNone "SECRET" = none ∧
      tableValue rt64 (.basic .string) "guest" = some (.str "guest") ∧
      (LoadFromEnv rt64 envNone exC2a).err = none ∧
      (LoadFromEnv rt64 envNone exC2a).config.fields[0]?.map StructField.value =
        some (.str "init")) ∧
    (exC2b.fields[1]?.map StructField.bindable = some true ∧ envPortAbc "HOST" = none ∧
      tableValue rt64 (.basic .string) "localhost" = some (.str "localhost") ∧
      (LoadFromEnv rt64 envPortAbc exC2b).config.fields[1]?.map StructField.value =
        some (.str "init")) ∧
    (exC2c.fields[0]?.map StructField.bindable = some true ∧ envNone "LEVEL" = none ∧
      tableValue rt64 (.basic .int8) "300" = some (.int 300) ∧
      fitsWidth 8 300 = false ∧
      (LoadFromEnv rt64 envNone exC2c).err = none ∧
      (LoadFromEnv rt64 envNone exC2c).config.fields[0]?.map StructField.value =
        some (.int 44)) := by
  decide

/-- C2 (amended): for every settable field with an environment key whose variable is unset
or set to the empty string, if `LoadFromEnv` raises no error at that field or before it
(the call on the record cut after field `i` returns no error) and, when the field is a
signed integer that is no duration, the integer its default reads as fits the field's
width, then after the call on the whole record the field holds the value of its default
literal in its type (`tableValue`, which converts nothing to a width), and nothing else
of it changed; for a string field that is the default literal verbatim. A default outside
the field's width is left out. -/
theorem C2_default_when_unset_or_empty (rt : Runtime) (env : Environ)
    (fields : List StructField) (i : Nat) (f : StructField)
    (hf : fields[i]? = some f) (hkey : f.bindable = true) (hset : f.CanSet = true)
    (henv : env (tagGet f.envTag) = none ∨ env (tagGet f.envTag) = some "")
    (hok : (LoadFromEnv rt env (.structPointer (fields.take (i + 1)))).err = none)
    (hfit : ∀ n : Int, signedIntKind f.typ.kind = true → f.typ ≠ .Duration →
      ParseInt (tagGet f.defaultTag) 64 = (n, none) →
      fitsWidth (intBits rt f.typ.kind) n = true) :
    ∃ v, tableValue rt f.typ (tagGet f.defaultTag) = some v ∧
      (LoadFromEnv rt env (.structPointer fields)).config.fields[i]? =
        some { f with value := v } ∧
      (f.typ.kind = .string → v = .str (tagGet f.defaultTag)) := by
  rw [LoadFromEnv_structPointer] at hok ⊢
  simp only at hok
  have hk : tagGet f.envTag ≠ "" := by simpa [StructField.bindable] using hkey
  have hi : i < fields.length := (List.getElem?_eq_some.mp hf).1
  have hft : (fields.take (i + 1))[i]? = some f := by
    rw [List.getElem?_take_of_lt (Nat.lt_succ_self i)]; exact hf
  obtain ⟨f1, hs, hg⟩ := bindFields_ok_get rt env _ hok i f hft hk
  rw [resolved_default env f henv] at hs
  obtain ⟨v, hv, hf1⟩ := setFieldValue_ok_coerce rt f f1 _ hset hs
  refine ⟨v, coerce_tableValue rt f.typ _ v hv hfit, ?_, ?_⟩
  · have hsplit := bindFields_append rt env (fields.take (i + 1)) (fields.drop (i + 1)) hok
    rw [List.take_append_drop] at hsplit
    simp only [Config.fields]
    rw [hsplit]
    simp only
    rw [List.getElem?_append_left, hg, hf1]
    rw [bindFields_length, List.length_take]
    omega
  · intro hstr
    simp [coerce, hstr] at hv
    exact hv.symm

/-- C2 at `exC2b` with no variable set: the integer field takes its default `8080`. -/
theorem C2_default_when_unset_or_empty_witness :
    ∃ v, tableValue rt64 (.basic .int) "8080" = some v ∧
      (LoadFromEnv rt64 envNone exC2b).config.fields[0]? =
        some ⟨"Port", some "PORT", some "8080", .basic .int, true, v⟩ ∧
      ((GoType.basic Kind.int).kind = .string → v = .str "8080") :=
  C2_default_when_unset_or_empty rt64 envNone exC2b.fields 0
    ⟨"Port", some "PORT", some "8080", .basic .int, true, .int 1⟩ (by decide) (by decide)
    (by decide) (Or.inl (by decide)) (by decide)
    (fun n _ _ h => by
      have hn : n = 8080 := by
        have h2 : ParseInt "8080" 64 = (8080, none) := by decide
        have h3 : ParseInt "8080" 64 = (n, none) := h
        rw [h2] at h3
        exact (Prod.mk.inj h3).1.symm
      subst hn
      decide)

/-! ## C4 -/

/-- C4 fails as stated: a variable set to the empty string gives the field its default, not
the (empty) environment value (`exC4a`), and an unexported string field keeps its value
whatever the variable is set to (`exC4b`); both calls return without error. -/
theorem C4_counterexample :
    (envHostEmpty "HOST" = some "" ∧
      (LoadFromEnv rt64 envHostEmpty exC4a).err = none ∧
      (LoadFromEnv rt64 envHostEmpty exC4a).config.fields[0]?.map StructField.value =
        some (.str "localhost")) ∧
    (envHost "HOST" = some "example.org" ∧
      (LoadFromEnv rt64 envHost exC4b).err = none ∧
      (LoadFromEnv rt64 envHost exC4b).config.fields[0]?.map StructField.value =
        some (.str "init")) := by
  decide

/-- C4 (amended): for every settable string field with an environment key whose variable
is set to a non-empty value, after `LoadFromEnv` returns without error the field holds the
environment value exactly, and nothing else of it changed. -/
theorem C4_string_verbatim (rt : Runtime) (env : Environ) (fields : List StructField)
    (i : Nat) (f : StructField) (v : String)
    (hf : fields[i]? = some f) (hkey : f.bindable = true) (hset : f.CanSet = true)
    (hstr : f.typ.kind = .string) (henv : env (tagGet f.envTag) = some v) (hv : v ≠ "")
    (hok : (LoadFromEnv rt env (.structPointer fields)).err = none) :
    (LoadFromEnv rt env (.structPointer fields)).config.fields[i]? =
      some { f with value := .str v } := by
  rw [LoadFromEnv_structPointer] at hok ⊢
  simp only at hok
  have hk : tagGet f.envTag ≠ "" := by simpa [StructField.bindable] using hkey
  obtain ⟨f1, hs, hg⟩ := bindFields_ok_get rt env _ hok i f hf hk
  rw [resolved_set env f v henv hv] at hs
  obtain ⟨w, hw, hf1⟩ := setFieldValue_ok_coerce rt f f1 _ hset hs
  simp [coerce, hstr] at hw
  simp only [Config.fields]
  rw [hg, hf1, ← hw]

/-- C4 at `exC4a` with `HOST=example.org`. -/
theorem C4_string_verbatim_witness :
    (LoadFromEnv rt64 envHost exC4a).config.fields[0]? =
      some ⟨"Host", some "HOST", some "localhost", .basic .string, true,
        .str "example.org"⟩ :=
  C4_string_verbatim rt64 envHost exC4a.fields 0
    ⟨"Host", some "HOST", some "localhost", .basic .string, true, .str "init"⟩
    "example.org" (by decide) (by decide) (by decide) (by decide) (by decide) (by decide)
    (by decide)

/-! ## C5 -/

/-- C5: whenever `LoadFromEnv` returns an error on a pointer to a struct, the error was
raised at a field `i` (one with an environment key whose assignment fails); every
settable field with an environment key declared before `i` holds the coercion of its
resolved string, and field `i` and every field after it are what they were before. -/
theorem C5_not_transactional (rt : Runtime) (env : Environ) (fields : List StructField)
    (e : String) (h : (LoadFromEnv rt env (.structPointer fields)).err = some e) :
    ∃ (i : Nat) (f : StructField) (msg : String), fields[i]? = some f ∧ f.bindable = true ∧
      setFieldValue rt f (resolved env f) = .error msg ∧
      e = "error setting field " ++ f.Name ++ ": " ++ msg ∧
      (∀ (j : Nat) (g : StructField), j < i → fields[j]? = some g → g.bindable = true → g.CanSet = true →
        ∃ v, coerce rt g.typ (resolved env g) = some v ∧
          (LoadFromEnv rt env (.structPointer fields)).config.fields[j]? =
            some { g with value := v }) ∧
      (∀ j : Nat, i ≤ j →
        (LoadFromEnv rt env (.structPointer fields)).config.fields[j]? = fields[j]?) := by
  rw [LoadFromEnv_structPointer] at h ⊢
  simp only at h
  simp only [Config.fields]
  obtain ⟨pre, f, post, msg, hsplit, hpre, hk, hs, he⟩ := bindFields_err_split rt env _ e h
  subst hsplit
  have hlen := bindFields_length rt env pre
  refine ⟨pre.length, f, msg, by rw [List.getElem?_append_right (le_refl _)]; simp,
    by simpa [StructField.bindable] using hk, hs, he,
    ?_, ?_⟩
  · intro j g hj hg hgk hgs
    rw [List.getElem?_append_left hj] at hg
    have hgk1 : tagGet g.envTag ≠ "" := by simpa [StructField.bindable] using hgk
    obtain ⟨g1, hg1, hget⟩ := bindFields_ok_get rt env pre hpre j g hg hgk1
    obtain ⟨v, hv, hgv⟩ := setFieldValue_ok_coerce rt g g1 _ hgs hg1
    refine ⟨v, hv, ?_⟩
    rw [bindFields_append_error rt env pre post f msg hpre hk hs]
    simp only
    rw [List.getElem?_append_left (by omega), hget, hgv]
  · intro j hj
    rw [bindFields_append_error rt env pre post f msg hpre hk hs]
    simp only
    rw [List.getElem?_append_right (by omega), List.getElem?_append_right hj, hlen]

/-- C5 at the record `exC5` with `HOST=example.org` and `PORT=abc`: the call fails at the
integer field `Port`, `Host` holds `example.org`, `Port` and `Name` are untouched. -/
theorem C5_not_transactional_witness :
    LoadFromEnv rt64 envHostPortAbc (.structPointer exC5) =
      ⟨some "error setting field Port: invalid integer format: abc",
        .structPointer
          [⟨"Host", some "HOST", some "localhost", .basic .string, true, .str "example.org"⟩,
           ⟨"Port", some "PORT", some "8080", .basic .int, true, .int 1⟩,
           ⟨"Name", some "NAME", some "svc", .basic .string, true, .str "old"⟩],
        ["HOST", "PORT"]⟩ ∧
    ∃ (i : Nat) (f : StructField) (msg : String), exC5[i]? = some f ∧ f.bindable = true ∧
      setFieldValue rt64 f (resolved envHostPortAbc f) = .error msg ∧
      "error setting field Port: invalid integer format: abc" =
        "error setting field " ++ f.Name ++ ": " ++ msg ∧
      (∀ (j : Nat) (g : StructField), j < i → exC5[j]? = some g → g.bindable = true → g.CanSet = true →
        ∃ v, coerce rt64 g.typ (resolved envHostPortAbc g) = some v ∧
          (LoadFromEnv rt64 envHostPortAbc (.structPointer exC5)).config.fields[j]? =
            some { g with value := v }) ∧
      (∀ j : Nat, i ≤ j →
        (LoadFromEnv rt64 envHostPortAbc (.structPointer exC5)).config.fields[j]? =
          exC5[j]?) :=
  ⟨by decide, C5_not_transactional rt64 envHostPortAbc exC5 _ (by decide)⟩

/-! ## Lemmas on a field the loop reaches -/

/-- The loop on a record whose field `f` is assigned after the prefix `pre` passed. -/
theorem bindFields_append_ok (rt : Runtime) (env : Environ) (pre post : List StructField)
    (f f1 : StructField) (hpre : (bindFields rt env pre).err = none)
    (hk : tagGet f.envTag ≠ "") (hs : setFieldValue rt f (resolved env f) = .ok f1) :
    bindFields rt env (pre ++ f :: post) =
      ⟨(bindFields rt env post).err,
        (bindFields rt env pre).fields ++ f1 :: (bindFields rt env post).fields,
        (bindFields rt env pre).lookups ++ tagGet f.envTag :: (bindFields rt env post).lookups⟩ := by
  rw [bindFields_append rt env pre (f :: post) hpre, bindFields_cons_ok rt env f f1 post hk hs]

/-- A settable field of a kind without a case in `setFieldValue` raises the
unsupported-type error, whatever the string. -/
theorem setFieldValue_unsupported (rt : Runtime) (field : StructField) (value : String)
    (hc : field.CanSet = true) (hk : supportedKind field.typ.kind = false) :
    setFieldValue rt field value =
      .error ("unsupported field type: " ++ kindString field.typ.kind) := by
  simp only [setFieldValue, hc, not_true_eq_false, if_false]
  cases hkind : field.typ.kind <;> simp_all [supportedKind]

/-- The text of every error of `setFieldValue`: the reason for the field's type, then the
string for a supported kind and the kind's name for an unsupported one. -/
theorem setFieldValue_error_text (rt : Runtime) (field : StructField) (value msg : String)
    (h : setFieldValue rt field value = .error msg) :
    msg = failureReason field.typ ++ ": " ++
      (if supportedKind field.typ.kind then value else kindString field.typ.kind) := by
  have hc := setFieldValue_error_CanSet rt field value msg h
  simp only [setFieldValue, hc, not_true_eq_false, if_false] at h
  unfold failureReason
  cases hk : field.typ.kind <;> simp only [hk, supportedKind] at h ⊢ <;> (try split at h) <;>
    (try split at h) <;>
    simp_all [String.ext_iff, String.data_append]

/-- A field that cannot be set passes through the loop as if it were not declared: the
error is that of the record without it, it keeps its place and contents, and the other
fields end as they do without it. -/
theorem bindFields_not_CanSet (rt : Runtime) (env : Environ) (pre post : List StructField)
    (f : StructField) (hset : f.CanSet = false) :
    (bindFields rt env (pre ++ f :: post)).err = (bindFields rt env (pre ++ post)).err ∧
    (bindFields rt env (pre ++ f :: post)).fields[pre.length]? = some f ∧
    (bindFields rt env (pre ++ f :: post)).fields.eraseIdx pre.length =
      (bindFields rt env (pre ++ post)).fields := by
  induction pre with
  | nil =>
    by_cases hk : tagGet f.envTag = ""
    · rw [List.nil_append, bindFields_cons_skip rt env f post hk]; simp
    · rw [List.nil_append, bindFields_cons_ok rt env f f post hk
        (setFieldValue_not_CanSet rt f _ hset)]
      simp
  | cons g rest ih =>
    obtain ⟨ih1, ih2, ih3⟩ := ih
    simp only [List.cons_append, List.length_cons]
    by_cases hk : tagGet g.envTag = ""
    · rw [bindFields_cons_skip rt env g _ hk, bindFields_cons_skip rt env g _ hk]
      simp [ih1, ih2, ih3]
    · cases hs : setFieldValue rt g (resolved env g) with
      | error msg =>
        rw [bindFields_cons_error rt env g _ msg hk hs,
          bindFields_cons_error rt env g _ msg hk hs]
        refine ⟨rfl, ?_, ?_⟩
        · simp only [List.getElem?_cons_succ]
          rw [List.getElem?_append_right (le_refl _)]
          simp
        · simp only [List.eraseIdx_cons_succ]
          rw [List.eraseIdx_append_of_length_le (le_refl _)]
          simp
      | ok g1 =>
        rw [bindFields_cons_ok rt env g g1 _ hk hs, bindFields_cons_ok rt env g g1 _ hk hs]
        simp [ih1, ih2, ih3]

/-! ## C7 -/

/-- C7 fails as stated: an unexported field of struct kind with an environment key raises
no error. -/
theorem C7_counterexample :
    exC7.fields[0]?.map StructField.bindable = some true ∧
    exC7.fields[0]?.map (fun f => supportedKind f.typ.kind) = some false ∧
    LoadFromEnv rt64 envNone exC7 = ⟨none, exC7, ["INNER"]⟩ := by
  decide

/-- C7 (amended): for every settable field with an environment key whose kind is outside
the supported set, `LoadFromEnv`, when it reaches the field (the fields before it raise no
error), returns the error "error setting field NAME: unsupported field type: KIND" with
the field's name and kind, and leaves the field and the fields after it as they were. -/
theorem C7_unsupported_kind (rt : Runtime) (env : Environ) (pre post : List StructField)
    (f : StructField)
    (hreach : (LoadFromEnv rt env (.structPointer pre)).err = none)
    (hkey : f.bindable = true) (hset : f.CanSet = true)
    (hkind : supportedKind f.typ.kind = false) :
    (LoadFromEnv rt env (.structPointer (pre ++ f :: post))).err =
      some ("error setting field " ++ f.Name ++ ": unsupported field type: " ++
        kindString f.typ.kind) ∧
    (LoadFromEnv rt env (.structPointer (pre ++ f :: post))).config.fields.drop pre.length =
      f :: post := by
  rw [LoadFromEnv_structPointer] at hreach ⊢
  simp only at hreach
  have hk : tagGet f.envTag ≠ "" := by simpa [StructField.bindable] using hkey
  rw [bindFields_append_error rt env pre post f _ hreach hk
    (setFieldValue_unsupported rt f _ hset hkind)]
  refine ⟨?_, ?_⟩
  · simp [String.ext_iff, String.data_append]
  · simp only [Config.fields]
    rw [List.drop_append_of_le_length (by rw [bindFields_length]), ← bindFields_length rt env pre]
    simp

/-- C7 at a record of one exported field of struct kind. -/
theorem C7_unsupported_kind_witness :
    (LoadFromEnv rt64 envNone (.structPointer ([] ++ exC7ok :: []))).err =
      some ("error setting field " ++ exC7ok.Name ++ ": unsupported field type: " ++
        kindString exC7ok.typ.kind) ∧
    (LoadFromEnv rt64 envNone (.structPointer ([] ++ exC7ok :: []))).config.fields.drop
        ([] : List StructField).length = exC7ok :: [] :=
  C7_unsupported_kind rt64 envNone [] [] exC7ok (by decide) (by decide) (by decide)
    (by decide)

/-! ## C8 -/

/-- C8: a field that cannot be set (with an environment key or without one) raises no
error whatever the string and its type, and `LoadFromEnv` goes on as if the field were not
declared: the error returned is the one of the record without the field, the field keeps
its place and contents, and the other fields end as they do without it. -/
theorem C8_unsettable_skipped (rt : Runtime) (env : Environ) (pre post : List StructField)
    (f : StructField) (hset : f.CanSet = false) :
    (∀ value, setFieldValue rt f value = .ok f) ∧
    (LoadFromEnv rt env (.structPointer (pre ++ f :: post))).err =
      (LoadFromEnv rt env (.structPointer (pre ++ post))).err ∧
    (LoadFromEnv rt env (.structPointer (pre ++ f :: post))).config.fields[pre.length]? =
      some f ∧
    (LoadFromEnv rt env (.structPointer (pre ++ f :: post))).config.fields.eraseIdx
        pre.length =
      (LoadFromEnv rt env (.structPointer (pre ++ post))).config.fields := by
  simp only [LoadFromEnv_structPointer, Config.fields]
  exact ⟨fun value => setFieldValue_not_CanSet rt f value hset,
    bindFields_not_CanSet rt env pre post f hset⟩

/-- C8 at an unexported integer field with the key `PORT`, whose variable is `abc`, between
two string fields:
no error, the field keeps the value 1, and the string fields are bound. -/
theorem C8_unsettable_skipped_witness :
    LoadFromEnv rt64 envHostPortAbc (.structPointer (exC5.take 1 ++ exC8 :: exC5.drop 2)) =
      ⟨none,
        .structPointer
          [⟨"Host", some "HOST", some "localhost", .basic .string, true, .str "example.org"⟩,
           ⟨"port", some "PORT", some "8080", .basic .int, false, .int 1⟩,
           ⟨"Name", some "NAME", some "svc", .basic .string, true, .str "svc"⟩],
        ["HOST", "PORT", "NAME"]⟩ ∧
    ((∀ value, setFieldValue rt64 exC8 value = .ok exC8) ∧
    (LoadFromEnv rt64 envHostPortAbc (.structPointer (exC5.take 1 ++ exC8 :: exC5.drop 2))).err =
      (LoadFromEnv rt64 envHostPortAbc (.structPointer (exC5.take 1 ++ exC5.drop 2))).err ∧
    (LoadFromEnv rt64 envHostPortAbc
        (.structPointer (exC5.take 1 ++ exC8 :: exC5.drop 2))).config.fields[(exC5.take
          1).length]? = some exC8 ∧
    (LoadFromEnv rt64 envHostPortAbc
        (.structPointer (exC5.take 1 ++ exC8 :: exC5.drop 2))).config.fields.eraseIdx
        (exC5.take 1).length =
      (LoadFromEnv rt64 envHostPortAbc
        (.structPointer (exC5.take 1 ++ exC5.drop 2))).config.fields) :=
  ⟨by decide, C8_unsettable_skipped rt64 envHostPortAbc (exC5.take 1) (exC5.drop 2) exC8
    (by decide)⟩

/-! ## C9 -/

/-- C9 fails as stated: for a settable field of struct kind whose resolved string is `abc`
the error ends with the kind's name, so it is not of the form
"error setting field Nested: REASON: abc" for any reason. -/
theorem C9_counterexample :
    exC9.fields[0]?.map (resolved envNestedAbc) = some "abc" ∧
    (LoadFromEnv rt64 envNestedAbc exC9).err =
      some "error setting field Nested: unsupported field type: struct" ∧
    ¬ ∃ reason : String, (LoadFromEnv rt64 envNestedAbc exC9).err =
      some ("error setting field Nested: " ++ reason ++ ": " ++ "abc") := by
  refine ⟨by decide, by decide, ?_⟩
  rintro ⟨reason, h⟩
  have h1 : (LoadFromEnv rt64 envNestedAbc exC9).err =
      some "error setting field Nested: unsupported field type: struct" := by decide
  rw [h1] at h
  have h2 := congrArg (fun s => s.data.reverse.head?) (Option.some.inj h)
  simp [String.data_append] at h2

/-- C9 (amended): whenever `LoadFromEnv` fails during field processing, the error names
the first field in declaration order whose assignment fails, a settable field with an
environment key: the message is "error setting field NAME: REASON: RAW", where REASON is
the reason for the field's type ("invalid duration format", "invalid integer format",
"invalid boolean format", "invalid float format") and RAW the field's resolved string when
the field's kind is supported, and REASON is "unsupported field type" and RAW the name of
the field's kind when it is not. -/
theorem C9_error_names_first_failure (rt : Runtime) (env : Environ)
    (fields : List StructField) (e : String)
    (h : (LoadFromEnv rt env (.structPointer fields)).err = some e) :
    ∃ (i : Nat) (f : StructField), fields[i]? = some f ∧ f.bindable = true ∧
      f.CanSet = true ∧
      (∀ (j : Nat) (g : StructField), j < i → fields[j]? = some g → g.bindable = true →
        ∃ g1, setFieldValue rt g (resolved env g) = .ok g1) ∧
      (∃ msg, setFieldValue rt f (resolved env f) = .error msg) ∧
      e = "error setting field " ++ f.Name ++ ": " ++ failureReason f.typ ++ ": " ++
        (if supportedKind f.typ.kind then resolved env f else kindString f.typ.kind) := by
  rw [LoadFromEnv_structPointer] at h
  simp only at h
  obtain ⟨pre, f, post, msg, hsplit, hpre, hk, hs, he⟩ := bindFields_err_split rt env _ e h
  subst hsplit
  refine ⟨pre.length, f, by rw [List.getElem?_append_right (le_refl _)]; simp,
    by simpa [StructField.bindable] using hk,
    setFieldValue_error_CanSet rt f _ msg hs, ?_, ⟨msg, hs⟩, ?_⟩
  · intro j g hj hg hgk
    rw [List.getElem?_append_left hj] at hg
    obtain ⟨g1, hg1, _⟩ := bindFields_ok_get rt env pre hpre j g hg
      (by simpa [StructField.bindable] using hgk)
    exact ⟨g1, hg1⟩
  · rw [he, setFieldValue_error_text rt f _ msg hs]
    simp [String.ext_iff, String.data_append]

/-- C9 at the record `exC5` with `PORT=abc`: the error names the integer field `Port`. -/
theorem C9_error_names_first_failure_witness :
    (LoadFromEnv rt64 envHostPortAbc (.structPointer exC5)).err =
      some "error setting field Port: invalid integer format: abc" ∧
    ∃ (i : Nat) (f : StructField), exC5[i]? = some f ∧ f.bindable = true ∧
      f.CanSet = true ∧
      (∀ (j : Nat) (g : StructField), j < i → exC5[j]? = some g → g.bindable = true →
        ∃ g1, setFieldValue rt64 g (resolved envHostPortAbc g) = .ok g1) ∧
      (∃ msg, setFieldValue rt64 f (resolved envHostPortAbc f) = .error msg) ∧
      "error setting field Port: invalid integer format: abc" =
        "error setting field " ++ f.Name ++ ": " ++ failureReason f.typ ++ ": " ++
          (if supportedKind f.typ.kind then resolved envHostPortAbc f
            else kindString f.typ.kind) :=
  ⟨by decide, C9_error_names_first_failure rt64 envHostPortAbc exC5 _ (by decide)⟩

/-! ## C10 -/

/-- C10 fails as stated: `tRuE` equals `true` after case folding, yet a settable boolean
field whose variable is `tRuE` is rejected and keeps its value. -/
theorem C10_counterexample :
    caseFold "tRuE" = "true" ∧
    LoadFromEnv rt64 envDebugMixed (.structPointer [exC10]) =
      ⟨some "error setting field Debug: invalid boolean format: tRuE",
        .structPointer [exC10], ["DEBUG"]⟩ := by
  decide

/-- C10 (amended): for every settable boolean field with an environment key that
`LoadFromEnv` reaches, the resolved string is matched case-sensitively against twelve
literals: "1", "t", "T", "true", "TRUE", "True" set the field to true and "0", "f", "F",
"false", "FALSE", "False" set it to false, in both cases without an error for the field
(the call's error is the one of the fields after it); every other string is rejected with
"error setting field NAME: invalid boolean format: RAW". -/
theorem C10_bool_literals (rt : Runtime) (env : Environ) (pre post : List StructField)
    (f : StructField)
    (hreach : (LoadFromEnv rt env (.structPointer pre)).err = none)
    (hkey : f.bindable = true) (hset : f.CanSet = true) (hbool : f.typ.kind = .bool) :
    (resolved env f ∈ ["1", "t", "T", "true", "TRUE", "True"] →
      (LoadFromEnv rt env (.structPointer (pre ++ f :: post))).config.fields[pre.length]? =
        some { f with value := .bool true } ∧
      (LoadFromEnv rt env (.structPointer (pre ++ f :: post))).err =
        (LoadFromEnv rt env (.structPointer post)).err) ∧
    (resolved env f ∈ ["0", "f", "F", "false", "FALSE", "False"] →
      (LoadFromEnv rt env (.structPointer (pre ++ f :: post))).config.fields[pre.length]? =
        some { f with value := .bool false } ∧
      (LoadFromEnv rt env (.structPointer (pre ++ f :: post))).err =
        (LoadFromEnv rt env (.structPointer post)).err) ∧
    (resolved env f ∉ ["1", "t", "T", "true", "TRUE", "True"] →
      resolved env f ∉ ["0", "f", "F", "false", "FALSE", "False"] →
      (LoadFromEnv rt env (.structPointer (pre ++ f :: post))).err =
        some ("error setting field " ++ f.Name ++ ": invalid boolean format: " ++
          resolved env f)) := by
  simp only [LoadFromEnv_structPointer, Config.fields] at hreach ⊢
  have hk : tagGet f.envTag ≠ "" := by simpa [StructField.bindable] using hkey
  have hlen := bindFields_length rt env pre
  refine ⟨?_, ?_, ?_⟩
  · intro ht
    have hs : setFieldValue rt f (resolved env f) = .ok { f with value := .bool true } := by
      simp only [setFieldValue, StructField.SetBool, hset, hbool, ParseBool, if_pos ht,
        not_true_eq_false, if_false]
    rw [bindFields_append_ok rt env pre post f _ hreach hk hs]
    simp only
    rw [List.getElem?_append_right (by omega), hlen]
    simp
  · intro hfalse
    have hnt : resolved env f ∉ ["1", "t", "T", "true", "TRUE", "True"] := by
      intro ht
      revert ht hfalse
      generalize resolved env f = s
      intro ht hfalse
      simp only [List.mem_cons, List.mem_singleton, List.not_mem_nil, or_false] at ht hfalse
      rcases ht with h | h | h | h | h | h <;> subst h <;> revert hfalse <;> decide
    have hs : setFieldValue rt f (resolved env f) = .ok { f with value := .bool false } := by
      simp only [setFieldValue, StructField.SetBool, hset, hbool, ParseBool, if_neg hnt,
        if_pos hfalse, not_true_eq_false, if_false]
    rw [bindFields_append_ok rt env pre post f _ hreach hk hs]
    simp only
    rw [List.getElem?_append_right (by omega), hlen]
    simp
  · intro hnt hnf
    have hs : setFieldValue rt f (resolved env f) =
        .error ("invalid boolean format: " ++ resolved env f) := by
      simp only [setFieldValue, hset, hbool, ParseBool, if_neg hnt, if_neg hnf,
        not_true_eq_false, if_false]
    rw [bindFields_append_error rt env pre post f _ hreach hk hs]
    simp [String.ext_iff, String.data_append]

/-- C10 at a settable boolean field whose variable is `TRUE`: the field becomes true. -/
theorem C10_bool_literals_witness :
    (LoadFromEnv rt64 envDebugUpper (.structPointer [exC10])).config.fields[0]? =
        some { exC10 with value := .bool true } ∧
      (LoadFromEnv rt64 envDebugUpper (.structPointer [exC10])).err =
        (LoadFromEnv rt64 envDebugUpper (.structPointer [])).err :=
  (C10_bool_literals rt64 envDebugUpper [] [] exC10 (by decide) (by decide) (by decide)
    (by decide)).1 (by decide)

/-! ## Lemmas on a call that returns no error -/

/-- An assignment to a settable field succeeds exactly when the string coerces. -/
theorem setFieldValue_ok_iff_coerce (rt : Runtime) (field : StructField) (value : String)
    (hc : field.CanSet = true) :
    (∃ field1, setFieldValue rt field value = .ok field1) ↔
      (coerce rt field.typ value).isSome = true := by
  simp only [setFieldValue, hc, not_true_eq_false, if_false]
  unfold coerce
  cases hk : field.typ.kind <;> simp only [hk] <;> (try split) <;> (try split) <;>
    simp_all

/-- A string coerces exactly when the kind is supported and its parser accepts the string. -/
theorem coerce_isSome_iff (rt : Runtime) (typ : GoType) (value : String) :
    (coerce rt typ value).isSome = true ↔
      supportedKind typ.kind = true ∧ parserAccepts rt typ value = true := by
  unfold coerce parserAccepts
  cases hk : typ.kind <;> simp only [hk, supportedKind] <;> (try split) <;> (try split) <;>
    simp_all

/-- The value of a successful assignment is kept by the same assignment done again. -/
theorem setFieldValue_again (rt : Runtime) (field field1 : StructField) (value : String)
    (h : setFieldValue rt field value = .ok field1) :
    field1.envTag = field.envTag ∧ field1.defaultTag = field.defaultTag ∧
      setFieldValue rt field1 value = .ok field1 := by
  by_cases hc : field.CanSet = true
  · obtain ⟨v, hv, hf1⟩ := setFieldValue_ok_coerce rt field field1 value hc h
    subst hf1
    refine ⟨rfl, rfl, ?_⟩
    have hc1 : ({ field with value := v } : StructField).CanSet = true := hc
    obtain ⟨f2, hf2⟩ := (setFieldValue_ok_iff_coerce rt _ value hc1).mpr (by
      show (coerce rt field.typ value).isSome = true
      rw [hv]; rfl)
    obtain ⟨w, hw, hf2w⟩ := setFieldValue_ok_coerce rt _ f2 value hc1 hf2
    have hw1 : coerce rt field.typ value = some w := hw
    rw [hv] at hw1
    cases hw1
    rw [hf2, hf2w]
  · have hc0 : field.CanSet = false := by simpa using hc
    rw [setFieldValue_not_CanSet rt field value hc0] at h
    cases h
    exact ⟨rfl, rfl, setFieldValue_not_CanSet rt field value hc0⟩

/-- The loop returns no error exactly when the assignment of every field with an
environment key succeeds. -/
theorem bindFields_ok_iff (rt : Runtime) (env : Environ) (fields : List StructField) :
    (bindFields rt env fields).err = none ↔
      ∀ f ∈ fields, tagGet f.envTag ≠ "" →
        ∃ f1, setFieldValue rt f (resolved env f) = .ok f1 := by
  induction fields with
  | nil => simp [bindFields_nil]
  | cons field rest ih =>
    by_cases hk : tagGet field.envTag = ""
    · rw [bindFields_cons_skip rt env field rest hk]
      simp only [ih, List.mem_cons, forall_eq_or_imp]
      constructor
      · intro h
        exact ⟨fun hne => absurd hk hne, h⟩
      · intro h
        exact h.2
    · cases hs : setFieldValue rt field (resolved env field) with
      | error msg =>
        rw [bindFields_cons_error rt env field rest msg hk hs]
        simp only [List.mem_cons, forall_eq_or_imp]
        constructor
        · intro h
          cases h
        · intro h
          obtain ⟨f1, hf1⟩ := h.1 hk
          rw [hs] at hf1
          cases hf1
      | ok field1 =>
        rw [bindFields_cons_ok rt env field field1 rest hk hs]
        simp only [ih, List.mem_cons, forall_eq_or_imp]
        constructor
        · intro h
          exact ⟨fun _ => ⟨field1, hs⟩, h⟩
        · intro h
          exact h.2

/-- When the loop returns no error, every field ends as `boundField` of itself. -/
theorem bindFields_ok_fields (rt : Runtime) (env : Environ) (fields : List StructField)
    (h : (bindFields rt env fields).err = none) :
    (bindFields rt env fields).fields = fields.map (boundField rt env) := by
  induction fields with
  | nil => rfl
  | cons field rest ih =>
    by_cases hk : tagGet field.envTag = ""
    · rw [bindFields_cons_skip rt env field rest hk] at h ⊢
      simp only [List.map_cons, ih h]
      congr 1
      simp [boundField, StructField.bindable, hk]
    · cases hs : setFieldValue rt field (resolved env field) with
      | error msg =>
        rw [bindFields_cons_error rt env field rest msg hk hs] at h
        cases h
      | ok field1 =>
        rw [bindFields_cons_ok rt env field field1 rest hk hs] at h ⊢
        simp only [List.map_cons, ih h]
        congr 1
        by_cases hc : field.CanSet = true
        · obtain ⟨v, hv, hf1⟩ := setFieldValue_ok_coerce rt field field1 _ hc hs
          simp [boundField, StructField.bindable, hk, hc, hv, hf1]
        · have hc0 : field.CanSet = false := by simpa using hc
          rw [setFieldValue_not_CanSet rt field _ hc0] at hs
          cases hs
          simp [boundField, hc0]

/-! ## C13 -/

/-- C13: for every record, environment and permutation of the record's fields,
`LoadFromEnv` returns no error on the permuted record exactly when it returns none on the
original, and then every field ends, in both, as `boundField` of itself, which depends on
the field's own type, tags and settability and on the environment only. -/
theorem C13_field_order_irrelevant (rt : Runtime) (env : Environ)
    (fields permuted : List StructField) (hperm : fields.Perm permuted) :
    ((LoadFromEnv rt env (.structPointer permuted)).err = none ↔
      (LoadFromEnv rt env (.structPointer fields)).err = none) ∧
    ((LoadFromEnv rt env (.structPointer fields)).err = none →
      (LoadFromEnv rt env (.structPointer fields)).config.fields =
        fields.map (boundField rt env) ∧
      (LoadFromEnv rt env (.structPointer permuted)).config.fields =
        permuted.map (boundField rt env) ∧
      ((LoadFromEnv rt env (.structPointer fields)).config.fields).Perm
        (LoadFromEnv rt env (.structPointer permuted)).config.fields) := by
  simp only [LoadFromEnv_structPointer, Config.fields]
  have hiff : (bindFields rt env permuted).err = none ↔ (bindFields rt env fields).err = none := by
    rw [bindFields_ok_iff, bindFields_ok_iff]
    constructor
    · intro h f hf
      exact h f (hperm.mem_iff.mp hf)
    · intro h f hf
      exact h f (hperm.mem_iff.mpr hf)
  refine ⟨hiff, fun h => ?_⟩
  rw [bindFields_ok_fields rt env fields h, bindFields_ok_fields rt env permuted (hiff.mpr h)]
  exact ⟨rfl, rfl, hperm.map _⟩

/-- C13 at the record `exC5` and its reversal, no variable set: both calls return no error
and the fields end with their defaults in both orders. -/
theorem C13_field_order_irrelevant_witness :
    ((LoadFromEnv rt64 envNone (.structPointer exC5.reverse)).err = none ↔
      (LoadFromEnv rt64 envNone (.structPointer exC5)).err = none) ∧
    ((LoadFromEnv rt64 envNone (.structPointer exC5)).err = none →
      (LoadFromEnv rt64 envNone (.structPointer exC5)).config.fields =
        exC5.map (boundField rt64 envNone) ∧
      (LoadFromEnv rt64 envNone (.structPointer exC5.reverse)).config.fields =
        exC5.reverse.map (boundField rt64 envNone) ∧
      ((LoadFromEnv rt64 envNone (.structPointer exC5)).config.fields).Perm
        (LoadFromEnv rt64 envNone (.structPointer exC5.reverse)).config.fields) :=
  C13_field_order_irrelevant rt64 envNone exC5 exC5.reverse (List.reverse_perm exC5).symm

/-! ## C15 -/

/-- C15: `LoadFromEnv` returns no error if and only if its argument is a pointer to a
struct and every field of the struct that has a non-empty environment key and is settable
has a supported kind (string, signed integer, boolean, float) and a resolved string that
the parser for that kind accepts (`parserAccepts`: for a signed integer the duration
parser when the type is `time.Duration`, the base-10 integer parser otherwise). -/
theorem C15_success_iff (rt : Runtime) (env : Environ) (config : Config) :
    (LoadFromEnv rt env config).err = none ↔
      ∃ fields, config = .structPointer fields ∧
        ∀ f ∈ fields, f.bindable = true → f.CanSet = true →
          supportedKind f.typ.kind = true ∧
            parserAccepts rt f.typ (resolved env f) = true := by
  cases config with
  | structPointer fields =>
    rw [LoadFromEnv_structPointer]
    simp only [bindFields_ok_iff, Config.structPointer.injEq, exists_eq_left']
    constructor
    · intro h f hf hb hc
      have hk : tagGet f.envTag ≠ "" := by simpa [StructField.bindable] using hb
      exact (coerce_isSome_iff rt _ _).mp
        ((setFieldValue_ok_iff_coerce rt f _ hc).mp (h f hf hk))
    · intro h f hf hk
      by_cases hc : f.CanSet = true
      · exact (setFieldValue_ok_iff_coerce rt f _ hc).mpr ((coerce_isSome_iff rt _ _).mpr
          (h f hf (by simpa [StructField.bindable] using hk) hc))
      · exact ⟨f, setFieldValue_not_CanSet rt f _ (by simpa using hc)⟩
  | nilInterface => simp [LoadFromEnv, Config.kind]
  | value k hk => simp [LoadFromEnv, Config.kind, hk]
  | nilPointer => simp [LoadFromEnv, Config.kind, Config.elemKind]
  | pointer k hk => simp [LoadFromEnv, Config.kind, Config.elemKind, hk]

/-! ## C16 -/

/-- The loop run on its own result returns that result again. -/
theorem bindFields_idempotent (rt : Runtime) (env : Environ) (fields : List StructField) :
    bindFields rt env (bindFields rt env fields).fields = bindFields rt env fields := by
  induction fields with
  | nil => rfl
  | cons field rest ih =>
    by_cases hk : tagGet field.envTag = ""
    · rw [bindFields_cons_skip rt env field rest hk]
      simp only
      rw [bindFields_cons_skip rt env field _ hk, ih]
    · cases hs : setFieldValue rt field (resolved env field) with
      | error msg =>
        rw [bindFields_cons_error rt env field rest msg hk hs]
        simp only
        rw [bindFields_cons_error rt env field rest msg hk hs]
      | ok field1 =>
        obtain ⟨h1, h2, h3⟩ := setFieldValue_again rt field field1 _ hs
        have hres : resolved env field1 = resolved env field := by
          simp [resolved, h1, h2]
        have hk1 : tagGet field1.envTag ≠ "" := by rw [h1]; exact hk
        rw [bindFields_cons_ok rt env field field1 rest hk hs]
        simp only
        rw [bindFields_cons_ok rt env field1 field1 _ hk1 (by rw [hres]; exact h3), ih, h1]

/-- C16: for every argument and environment, `LoadFromEnv` called on the argument as a
first call left it has the outcome of that first call: the same error, the same final
state of the argument and the same lookups. -/
theorem C16_idempotent (rt : Runtime) (env : Environ) (config : Config) :
    LoadFromEnv rt env (LoadFromEnv rt env config).config = LoadFromEnv rt env config := by
  cases config with
  | structPointer fields =>
    simp only [LoadFromEnv_structPointer, bindFields_idempotent]
  | nilInterface => simp [LoadFromEnv, Config.kind]
  | value k hk => simp [LoadFromEnv, Config.kind, hk]
  | nilPointer => simp [LoadFromEnv, Config.kind, Config.elemKind]
  | pointer k hk => simp [LoadFromEnv, Config.kind, Config.elemKind, hk]

/-! ## Lemmas on a field at which the call fails -/

/-- The call on a record whose field `f` fails after the fields before it passed: the
error names `f`, and `f` and the fields after it are what they were. -/
theorem LoadFromEnv_reached_error (rt : Runtime) (env : Environ)
    (pre post : List StructField) (f : StructField) (msg : String)
    (hreach : (LoadFromEnv rt env (.structPointer pre)).err = none)
    (hkey : f.bindable = true)
    (hs : setFieldValue rt f (resolved env f) = .error msg) :
    (LoadFromEnv rt env (.structPointer (pre ++ f :: post))).err =
      some ("error setting field " ++ f.Name ++ ": " ++ msg) ∧
    (LoadFromEnv rt env (.structPointer (pre ++ f :: post))).config.fields.drop pre.length =
      f :: post := by
  rw [LoadFromEnv_structPointer] at hreach ⊢
  simp only at hreach
  have hk : tagGet f.envTag ≠ "" := by simpa [StructField.bindable] using hkey
  rw [bindFields_append_error rt env pre post f _ hreach hk hs]
  refine ⟨rfl, ?_⟩
  simp only [Config.fields]
  rw [List.drop_append_of_le_length (by rw [bindFields_length]), ← bindFields_length rt env pre]
  simp

/-- The call on a record whose field `f` is assigned after the fields before it passed:
the field holds the result, and the error is that of the fields after it. -/
theorem LoadFromEnv_reached_ok (rt : Runtime) (env : Environ)
    (pre post : List StructField) (f f1 : StructField)
    (hreach : (LoadFromEnv rt env (.structPointer pre)).err = none)
    (hkey : f.bindable = true)
    (hs : setFieldValue rt f (resolved env f) = .ok f1) :
    (LoadFromEnv rt env (.structPointer (pre ++ f :: post))).config.fields[pre.length]? =
      some f1 ∧
    (LoadFromEnv rt env (.structPointer (pre ++ f :: post))).err =
      (LoadFromEnv rt env (.structPointer post)).err := by
  simp only [LoadFromEnv_structPointer, Config.fields] at hreach ⊢
  have hk : tagGet f.envTag ≠ "" := by simpa [StructField.bindable] using hkey
  have hlen := bindFields_length rt env pre
  rw [bindFields_append_ok rt env pre post f f1 hreach hk hs]
  simp only
  rw [List.getElem?_append_right (by omega), hlen]
  simp

theorem ParseDuration_empty (rt : Runtime) : ParseDuration rt "" = none := rfl

theorem ParseInt_empty : ParseInt "" 64 = (0, some .ErrSyntax) := by decide

theorem ParseBool_empty : ParseBool "" = none := by decide

/-- The empty string coerces into no supported type other than string, given that
`ParseFloat` rejects it when the type is a float. -/
theorem coerce_empty (rt : Runtime) (typ : GoType)
    (hk : supportedKind typ.kind = true) (hs : typ.kind ≠ .string)
    (hfloat : (typ.kind = .float32 ∨ typ.kind = .float64) →
      rt.ParseFloat "" typ.bits = none) :
    coerce rt typ "" = none := by
  unfold coerce
  cases hkind : typ.kind <;>
    simp_all [supportedKind, ParseDuration_empty, ParseInt_empty, ParseBool_empty]

/-! ## C17 -/

/-- C17 fails as stated: of two settable integer fields with unset variables and no
defaults the call's error names the first, `Port`; the second, `Workers`, is in the same
situation and the error does not name it. -/
theorem C17_counterexample :
    exC17[1]? = some ⟨"Workers", some "WORKERS", none, .basic .int, true, .int 2⟩ ∧
    envNone "WORKERS" = none ∧
    (LoadFromEnv rt64 envNone (.structPointer exC17)).err =
      some "error setting field Port: invalid integer format: " ∧
    (LoadFromEnv rt64 envNone (.structPointer exC17)).err ≠
      some "error setting field Workers: invalid integer format: " ∧
    ¬ List.IsInfix "Workers".data
      "error setting field Port: invalid integer format: ".data := by
  decide

/-- C17 (amended): for every settable field with an environment key whose kind is a
signed integer (the duration type included), boolean or float, whose variable is unset or
empty and whose default is absent or empty, `LoadFromEnv`, when it reaches the field (the
fields before it raise no error), returns the coercion error
"error setting field NAME: REASON: " with the field's name, the reason for its type and
an empty raw value, and the field and the fields after it are what they were. For a float
field this holds for a `ParseFloat` that rejects the empty string. -/
theorem C17_empty_literal_rejected (rt : Runtime) (env : Environ)
    (pre post : List StructField) (f : StructField)
    (hreach : (LoadFromEnv rt env (.structPointer pre)).err = none)
    (hkey : f.bindable = true) (hset : f.CanSet = true)
    (hkind : supportedKind f.typ.kind = true) (hnotstr : f.typ.kind ≠ .string)
    (henv : env (tagGet f.envTag) = none ∨ env (tagGet f.envTag) = some "")
    (hdef : f.defaultTag = none ∨ f.defaultTag = some "")
    (hfloat : (f.typ.kind = .float32 ∨ f.typ.kind = .float64) →
      rt.ParseFloat "" f.typ.bits = none) :
    (LoadFromEnv rt env (.structPointer (pre ++ f :: post))).err =
      some ("error setting field " ++ f.Name ++ ": " ++ failureReason f.typ ++ ": ") ∧
    (LoadFromEnv rt env (.structPointer (pre ++ f :: post))).config.fields.drop pre.length =
      f :: post := by
  have hres : resolved env f = "" := by
    rw [resolved_default env f henv]
    rcases hdef with h | h <;> simp [tagGet, h]
  have hco := coerce_empty rt f.typ hkind hnotstr hfloat
  cases hs : setFieldValue rt f (resolved env f) with
  | ok f1 =>
    have h1 := (setFieldValue_ok_iff_coerce rt f _ hset).mp ⟨f1, hs⟩
    rw [hres, hco] at h1
    cases h1
  | error msg =>
    have htext := setFieldValue_error_text rt f _ msg hs
    rw [hres, hkind] at htext
    obtain ⟨h1, h2⟩ := LoadFromEnv_reached_error rt env pre post f msg hreach hkey hs
    refine ⟨?_, h2⟩
    rw [h1, htext]
    simp [String.ext_iff, String.data_append]

/-- C17 at a float field with an empty default and an unset variable, after an integer
field that takes its variable's value. -/
theorem C17_empty_literal_rejected_witness :
    (LoadFromEnv rt64 (fun k => if k = "PORT" then some "80" else none)
        (.structPointer (exC17.take 1 ++ exC17float :: exC17.drop 1))).err =
      some ("error setting field " ++ exC17float.Name ++ ": " ++
        failureReason exC17float.typ ++ ": ") ∧
    (LoadFromEnv rt64 (fun k => if k = "PORT" then some "80" else none)
        (.structPointer (exC17.take 1 ++ exC17float :: exC17.drop 1))).config.fields.drop
        (exC17.take 1).length = exC17float :: exC17.drop 1 :=
  C17_empty_literal_rejected rt64 (fun k => if k = "PORT" then some "80" else none)
    (exC17.take 1) (exC17.drop 1) exC17float (by decide) (by decide) (by decide)
    (by decide) (by decide) (Or.inl (by decide)) (Or.inr (by decide)) (fun _ => rfl)

/-! ## Integer literals and the duration parser -/

theorem isDigit_not_sign (c : Char) (h : isDigit c = true) : ¬ (c = '-' ∨ c = '+') := by
  rintro (hc | hc) <;> subst hc <;> revert h <;> decide

theorem isDigit_isNumChar (c : Char) (h : isDigit c = true) : isNumChar c = true := by
  simp only [isDigit, decide_eq_true_eq] at h
  simp [isNumChar, h]

/-- On a string of digits `leadingInt` overflows or consumes the whole string. -/
theorem leadingInt_all_digits (ds : List Char) (x : Nat)
    (h : ∀ c ∈ ds, isDigit c = true) :
    leadingInt ds x = none ∨ ∃ v, leadingInt ds x = some (v, []) := by
  induction ds generalizing x with
  | nil => exact Or.inr ⟨x, rfl⟩
  | cons c cs ih =>
    have hc : isDigit c = true := h c (List.mem_cons_self _ _)
    simp only [isDigit, decide_eq_true_eq] at hc
    simp only [leadingInt]
    rw [if_neg (by omega)]
    split
    · exact Or.inl rfl
    · split
      · exact Or.inl rfl
      · exact ih _ (fun c hc => h c (List.mem_cons_of_mem _ hc))

/-- A round of the duration loop fails on a string of digits: the unit is missing. -/
theorem parseDurationRound_all_digits (rt : Runtime) (ds : List Char) (d : Nat)
    (h : ∀ c ∈ ds, isDigit c = true) : parseDurationRound rt ds d = none := by
  unfold parseDurationRound
  split
  · rfl
  · rcases leadingInt_all_digits ds 0 h with h0 | ⟨v, hv⟩
    · rw [h0]
    · rw [hv]
      simp [fractionPart]

/-- The duration parser rejects every decimal integer literal, signed or not, other than
the literals of one digit `0`. -/
theorem ParseDuration_integer_literal (rt : Runtime) (s : String) (sign ds : List Char)
    (hs : s.data = sign ++ ds) (hsign : sign = [] ∨ sign = ['+'] ∨ sign = ['-'])
    (hds : ∀ c ∈ ds, isDigit c = true) (hne : ds ≠ []) (h0 : ds ≠ ['0']) :
    ParseDuration rt s = none := by
  have hstrip : (match s.data with
      | c :: rest => if c = '-' ∨ c = '+' then rest else c :: rest
      | [] => []) = ds := by
    rw [hs]
    rcases hsign with h | h | h
    · subst h
      obtain ⟨c, cs, hcs⟩ := List.exists_cons_of_ne_nil hne
      subst hcs
      simp only [List.nil_append]
      rw [if_neg (isDigit_not_sign c (hds c (List.mem_cons_self _ _)))]
    · subst h; simp
    · subst h; simp
  unfold ParseDuration
  simp only [hstrip]
  rw [if_neg h0, if_neg hne]
  simp only [parseDurationLoop, if_neg hne, parseDurationRound_all_digits rt ds 0 hds]

/-! ## Duration literals and the integer parser -/

/-- The digit loop of `ParseUint` at a decimal digit. -/
theorem parseUintLoop_digit (bitSize : Nat) (c : Char) (cs : List Char) (n : Nat)
    (h : isDigit c = true) :
    parseUintLoop bitSize (c :: cs) n =
      if n ≥ (2 ^ 64 - 1) / 10 + 1 then (2 ^ bitSize - 1, some .ErrRange)
      else if (n * 10 % 2 ^ 64 + (c.toNat - 48)) % 2 ^ 64 < n * 10 % 2 ^ 64 ∨
          (n * 10 % 2 ^ 64 + (c.toNat - 48)) % 2 ^ 64 > 2 ^ bitSize - 1 then
        (2 ^ bitSize - 1, some .ErrRange)
      else parseUintLoop bitSize cs ((n * 10 % 2 ^ 64 + (c.toNat - 48)) % 2 ^ 64) := by
  simp only [isDigit, decide_eq_true_eq] at h
  have h1 : 48 ≤ c.toNat ∧ c.toNat ≤ 57 ∨ 97 ≤ lower c.toNat ∧ lower c.toNat ≤ 122 := Or.inl h
  have h2 : ¬ c.toNat - 48 ≥ 10 := by omega
  simp only [parseUintLoop, if_pos h1, if_pos h, if_neg h2]

/-- The digit loop of `ParseUint` at a character that is no decimal digit. -/
theorem parseUintLoop_not_digit (bitSize : Nat) (c : Char) (cs : List Char) (n : Nat)
    (h : isDigit c = false) :
    parseUintLoop bitSize (c :: cs) n = (0, some .ErrSyntax) := by
  simp only [isDigit, decide_eq_false_iff_not] at h
  simp only [parseUintLoop, if_neg h]
  split
  · rw [if_pos (by omega)]
  · rfl

/-- The digit loop of `ParseUint` fails on a string with a character that is no digit. -/
theorem parseUintLoop_nondigit (bitSize : Nat) (cs : List Char) (n : Nat)
    (h : ∃ c ∈ cs, isDigit c = false) : (parseUintLoop bitSize cs n).2 ≠ none := by
  induction cs generalizing n with
  | nil => simp at h
  | cons c rest ih =>
    cases hc : isDigit c with
    | false => rw [parseUintLoop_not_digit bitSize c rest n hc]; simp
    | true =>
      rw [parseUintLoop_digit bitSize c rest n hc]
      split
      · simp
      · split
        · simp
        · apply ih
          obtain ⟨x, hx, hxd⟩ := h
          rcases List.mem_cons.mp hx with hxc | hxr
          · subst hxc
            rw [hc] at hxd
            cases hxd
          · exact ⟨x, hxr, hxd⟩

/-- A range error of the digit loop comes with the largest value. -/
theorem parseUintLoop_range (bitSize : Nat) (cs : List Char) (n : Nat)
    (h : (parseUintLoop bitSize cs n).2 = some .ErrRange) :
    (parseUintLoop bitSize cs n).1 = 2 ^ bitSize - 1 := by
  induction cs generalizing n with
  | nil => simp [parseUintLoop] at h
  | cons c rest ih =>
    cases hc : isDigit c with
    | false =>
      rw [parseUintLoop_not_digit bitSize c rest n hc] at h
      simp at h
    | true =>
      rw [parseUintLoop_digit bitSize c rest n hc] at h ⊢
      split
      · rfl
      · rename_i h1
        rw [if_neg h1] at h
        split
        · rfl
        · rename_i h2
          rw [if_neg h2] at h
          exact ih _ h

/-- The integer parser rejects a string that has, after its sign, a character that is no
digit. -/
theorem ParseInt_nondigit (s : String) (c : Char) (rest : List Char)
    (hs : s.data = c :: rest)
    (h : ∃ x ∈ (if c = '+' ∨ c = '-' then rest else c :: rest), isDigit x = false) :
    (ParseInt s 64).2 ≠ none := by
  unfold ParseInt
  rw [hs]
  simp only
  have hne : (if c = '+' ∨ c = '-' then rest else c :: rest) ≠ [] := by
    obtain ⟨x, hx, _⟩ := h
    exact List.ne_nil_of_mem hx
  have hloop := parseUintLoop_nondigit 64 _ 0 h
  have hrange := parseUintLoop_range 64 (if c = '+' ∨ c = '-' then rest else c :: rest) 0
  simp only [ParseUint, if_neg hne]
  generalize parseUintLoop 64 (if c = '+' ∨ c = '-' then rest else c :: rest) 0 = r at *
  obtain ⟨un, err⟩ := r
  simp only at hloop hrange ⊢
  cases err with
  | none => exact absurd rfl hloop
  | some e =>
    cases e with
    | ErrSyntax => simp
    | ErrRange =>
      have hun : un = 2 ^ 64 - 1 := hrange rfl
      subst hun
      by_cases hneg : c = '-' <;> simp [hneg]

theorem leadingInt_subset (s : List Char) (x v : Nat) (s1 : List Char)
    (h : leadingInt s x = some (v, s1)) : ∀ c ∈ s1, c ∈ s := by
  induction s generalizing x with
  | nil =>
    simp only [leadingInt, Option.some.injEq, Prod.mk.injEq] at h
    rw [← h.2]
    exact fun c hc => hc
  | cons a cs ih =>
    simp only [leadingInt] at h
    split at h
    · simp only [Option.some.injEq, Prod.mk.injEq] at h
      rw [← h.2]
      exact fun c hc => hc
    · split at h
      · cases h
      · split at h
        · cases h
        · exact fun c hc => List.mem_cons_of_mem _ (ih _ h c hc)

theorem leadingFraction_subset (s : List Char) (x kept : Nat) (overflow : Bool) :
    ∀ c ∈ (leadingFraction s x kept overflow).2.2, c ∈ s := by
  induction s generalizing x kept overflow with
  | nil => simp [leadingFraction]
  | cons a cs ih =>
    simp only [leadingFraction]
    split
    · exact fun c hc => hc
    · split
      · exact fun c hc => List.mem_cons_of_mem _ (ih _ _ _ c hc)
      · split
        · exact fun c hc => List.mem_cons_of_mem _ (ih _ _ _ c hc)
        · split
          · exact fun c hc => List.mem_cons_of_mem _ (ih _ _ _ c hc)
          · exact fun c hc => List.mem_cons_of_mem _ (ih _ _ _ c hc)

theorem fractionPart_subset (s1 : List Char) :
    ∀ c ∈ (fractionPart s1).2.2.1, c ∈ s1 := by
  unfold fractionPart
  split
  · rename_i s1'
    exact fun c hc => List.mem_cons_of_mem _ (leadingFraction_subset s1' 0 0 false c hc)
  · exact fun c hc => hc

/-- A round of the duration loop that succeeds has consumed a unit: the string has a
character that is neither a digit nor a period. -/
theorem parseDurationRound_some_unit (rt : Runtime) (s : List Char) (d : Nat)
    (r : List Char × Nat) (h : parseDurationRound rt s d = some r) :
    ∃ c ∈ s, isNumChar c = false := by
  unfold parseDurationRound at h
  split at h
  · cases h
  · split at h
    · cases h
    · rename_i v s1 hli
      simp only at h
      split at h
      · cases h
      · split at h
        · cases h
        · rename_i hu
          obtain ⟨c, cs, hcs⟩ := List.exists_cons_of_ne_nil hu
          have hmem : c ∈ List.takeWhile (fun c => decide ¬ isNumChar c = true)
              (fractionPart s1).2.2.1 := by
            rw [hcs]; exact List.mem_cons_self _ _
          refine ⟨c, ?_, ?_⟩
          · exact leadingInt_subset s 0 v s1 hli c
              (fractionPart_subset s1 c ((List.takeWhile_sublist _).subset hmem))
          · simpa using List.mem_takeWhile_imp hmem

/-- The string after the sign of a string the duration parser accepts is `0` or has a
character that is neither a digit nor a period. -/
theorem ParseDuration_some_unit (rt : Runtime) (s : String) (d : Int)
    (h : ParseDuration rt s = some d) :
    (match s.data with
      | c :: rest => if c = '-' ∨ c = '+' then rest else c :: rest
      | [] => []) = ['0'] ∨
    ∃ c ∈ (match s.data with
      | c :: rest => if c = '-' ∨ c = '+' then rest else c :: rest
      | [] => []), isNumChar c = false := by
  unfold ParseDuration at h
  simp only at h
  generalize (match s.data with
      | c :: rest => if c = '-' ∨ c = '+' then rest else c :: rest
      | [] => []) = s1 at h ⊢
  split at h
  · rename_i h0
    exact Or.inl h0
  · split at h
    · cases h
    · rename_i hne
      right
      simp only [parseDurationLoop, if_neg hne] at h
      cases hr : parseDurationRound rt s1 0 with
      | none => simp [hr] at h
      | some r => exact parseDurationRound_some_unit rt s1 0 r hr

/-- The integer parser rejects every string the duration parser accepts, other than the
three spellings of zero they share. -/
theorem ParseInt_rejects_duration (rt : Runtime) (s : String) (d : Int)
    (h : ParseDuration rt s = some d) (hz : s ∉ ["0", "+0", "-0"]) :
    (ParseInt s 64).2 ≠ none := by
  have hcases := ParseDuration_some_unit rt s d h
  cases hdata : s.data with
  | nil =>
    rw [hdata] at hcases
    simp at hcases
  | cons c rest =>
    rw [hdata] at hcases
    simp only at hcases
    have hswap : (if c = '+' ∨ c = '-' then rest else c :: rest) =
        (if c = '-' ∨ c = '+' then rest else c :: rest) := by
      by_cases h1 : c = '-' ∨ c = '+'
      · rw [if_pos h1, if_pos (Or.symm h1)]
      · rw [if_neg h1, if_neg (fun h2 => h1 (Or.symm h2))]
    rcases hcases with h0 | ⟨x, hx, hxn⟩
    · exfalso
      apply hz
      by_cases h1 : c = '-' ∨ c = '+'
      · rw [if_pos h1] at h0
        have hs : s = ⟨c :: rest⟩ := String.ext hdata
        rw [hs, h0]
        rcases h1 with h1 | h1 <;> subst h1 <;> decide
      · rw [if_neg h1] at h0
        have hs : s = ⟨c :: rest⟩ := String.ext hdata
        rw [hs, h0]
        decide
    · apply ParseInt_nondigit s c rest hdata
      rw [hswap]
      refine ⟨x, hx, ?_⟩
      cases hd : isDigit x with
      | false => rfl
      | true => rw [isDigit_isNumChar x hd] at hxn; cases hxn

/-- The case of `setFieldValue` for a settable field of type `time.Duration`. -/
theorem setFieldValue_Duration (rt : Runtime) (f : StructField) (value : String)
    (hc : f.CanSet = true) (ht : f.typ = .Duration) :
    setFieldValue rt f value =
      match ParseDuration rt value with
      | some d => .ok { f with value := .int d }
      | none => .error ("invalid duration format: " ++ value) := by
  simp only [setFieldValue, hc, ht, GoType.kind, not_true_eq_false, if_false, if_true,
    StructField.SetDuration]

/-- The case of `setFieldValue` for a settable signed-integer field that is no duration. -/
theorem setFieldValue_signedInt (rt : Runtime) (f : StructField) (value : String)
    (hc : f.CanSet = true) (hk : signedIntKind f.typ.kind = true)
    (ht : f.typ ≠ .Duration) :
    setFieldValue rt f value =
      if (ParseInt value 64).2 = none
      then .ok { f with value := .int (wrapInt (intBits rt f.typ.kind) (ParseInt value 64).1) }
      else .error ("invalid integer format: " ++ value) := by
  simp only [setFieldValue, hc, not_true_eq_false, if_false]
  rcases hp : ParseInt value 64 with ⟨n, e⟩
  cases hkind : f.typ.kind <;> simp [hkind, signedIntKind] at hk <;> cases e <;>
    simp [ht, StructField.SetInt, hkind, hc]

/-! ## C14 -/

/-- C14 fails as stated on three inputs. With `PORT=abc` and `TIMEOUT=300` the call fails
at the integer field `Port`: the error is an "invalid integer format" error naming `Port`,
not an "invalid duration format" error naming the duration field `Timeout`, whose
resolved string is `300`. A settable duration field with the default `300` and no
environment key raises no error. And `0` is a literal the duration parser accepts, yet a
settable int32 field whose variable is `0` does not reject it: the call returns no error
and the field holds 0. -/
theorem C14_counterexample :
    (exPortTimeout[1]? = some exTimeout ∧ exTimeout.typ = .Duration ∧
      exTimeout.CanSet = true ∧ resolved envPortAbcTimeout300 exTimeout = "300" ∧
      LoadFromEnv rt64 envPortAbcTimeout300 (.structPointer exPortTimeout) =
        ⟨some "error setting field Port: invalid integer format: abc",
          .structPointer exPortTimeout, ["PORT"]⟩) ∧
    (exTimeout300NoKey.typ = .Duration ∧ exTimeout300NoKey.CanSet = true ∧
      exTimeout300NoKey.defaultTag = some "300" ∧
      LoadFromEnv rt64 envNone (.structPointer [exTimeout300NoKey]) =
        ⟨none, .structPointer [exTimeout300NoKey], []⟩) ∧
    (ParseDuration rt64 "0" = some 0 ∧ signedIntKind exRetries.typ.kind = true ∧
      exRetries.typ ≠ .Duration ∧ resolved envRetriesZero exRetries = "0" ∧
      LoadFromEnv rt64 envRetriesZero (.structPointer [exRetries]) =
        ⟨none, .structPointer [{ exRetries with value := .int 0 }], ["RETRIES"]⟩) := by
  decide

/-- C14 (amended): for a settable field with an environment key that `LoadFromEnv`
reaches (the fields before it raise no error): if its type is `time.Duration` and its
resolved string is a non-zero decimal integer literal without a unit (an optional sign,
then digits), the call fails with "error setting field NAME: invalid duration format: RAW"
and the field and those after it are unchanged; if it is a signed-integer field of another
type and its resolved string is one the duration parser accepts, other than `0`, `+0` and
`-0`, the call fails with "error setting field NAME: invalid integer format: RAW" and the
field and those after it are unchanged. -/
theorem C14_duration_never_plain_integer (rt : Runtime) (env : Environ)
    (pre post : List StructField) (f : StructField)
    (hreach : (LoadFromEnv rt env (.structPointer pre)).err = none)
    (hkey : f.bindable = true) (hset : f.CanSet = true) :
    (f.typ = .Duration →
      ∀ sign ds : List Char, (sign = [] ∨ sign = ['+'] ∨ sign = ['-']) → ds ≠ [] →
        (∀ c ∈ ds, isDigit c = true) → decimalValue ds ≠ 0 →
        (resolved env f).data = sign ++ ds →
        (LoadFromEnv rt env (.structPointer (pre ++ f :: post))).err =
          some ("error setting field " ++ f.Name ++ ": invalid duration format: " ++
            resolved env f) ∧
        (LoadFromEnv rt env (.structPointer (pre ++ f :: post))).config.fields.drop
          pre.length = f :: post) ∧
    (signedIntKind f.typ.kind = true → f.typ ≠ .Duration →
      ∀ d : Int, ParseDuration rt (resolved env f) = some d →
        resolved env f ∉ ["0", "+0", "-0"] →
        (LoadFromEnv rt env (.structPointer (pre ++ f :: post))).err =
          some ("error setting field " ++ f.Name ++ ": invalid integer format: " ++
            resolved env f) ∧
        (LoadFromEnv rt env (.structPointer (pre ++ f :: post))).config.fields.drop
          pre.length = f :: post) := by
  refine ⟨?_, ?_⟩
  · intro ht sign ds hsign hne hds hval hdata
    have h0 : ds ≠ ['0'] := by
      intro h
      rw [h] at hval
      exact hval (by decide)
    have hs : setFieldValue rt f (resolved env f) =
        .error ("invalid duration format: " ++ resolved env f) := by
      rw [setFieldValue_Duration rt f _ hset ht,
        ParseDuration_integer_literal rt _ sign ds hdata hsign hds hne h0]
    obtain ⟨h1, h2⟩ := LoadFromEnv_reached_error rt env pre post f _ hreach hkey hs
    refine ⟨?_, h2⟩
    rw [h1]
    simp [String.ext_iff, String.data_append]
  · intro hk ht d hd hz
    have hs : setFieldValue rt f (resolved env f) =
        .error ("invalid integer format: " ++ resolved env f) := by
      rw [setFieldValue_signedInt rt f _ hset hk ht,
        if_neg (ParseInt_rejects_duration rt _ d hd hz)]
    obtain ⟨h1, h2⟩ := LoadFromEnv_reached_error rt env pre post f _ hreach hkey hs
    refine ⟨?_, h2⟩
    rw [h1]
    simp [String.ext_iff, String.data_append]

/-- C14 at a duration field whose variable is `300` and at an int32 field whose variable
is `300ms`, each as the only field of its record. -/
theorem C14_duration_never_plain_integer_witness :
    ((LoadFromEnv rt64 envC14 (.structPointer ([] ++ exTimeout :: []))).err =
        some ("error setting field " ++ exTimeout.Name ++ ": invalid duration format: " ++
          resolved envC14 exTimeout) ∧
      (LoadFromEnv rt64 envC14 (.structPointer ([] ++ exTimeout :: []))).config.fields.drop
        ([] : List StructField).length = exTimeout :: []) ∧
    ((LoadFromEnv rt64 envC14 (.structPointer ([] ++ exRetries :: []))).err =
        some ("error setting field " ++ exRetries.Name ++ ": invalid integer format: " ++
          resolved envC14 exRetries) ∧
      (LoadFromEnv rt64 envC14 (.structPointer ([] ++ exRetries :: []))).config.fields.drop
        ([] : List StructField).length = exRetries :: []) ∧
    resolved envC14 exTimeout = "300" ∧ resolved envC14 exRetries = "300ms" ∧
    ParseDuration rt64 "300ms" = some 300000000 :=
  ⟨(C14_duration_never_plain_integer rt64 envC14 [] [] exTimeout (by decide) (by decide)
      (by decide)).1 (by decide) [] ['3', '0', '0'] (Or.inl rfl) (by decide) (by decide)
      (by decide) (by decide),
    (C14_duration_never_plain_integer rt64 envC14 [] [] exRetries (by decide) (by decide)
      (by decide)).2 (by decide) (by decide) 300000000 (by decide) (by decide),
    by decide, by decide, by decide⟩

/-! ## The duration parser on number-unit components -/

theorem lookup_mem (k : String) (v : Nat) (l : List (String × Nat))
    (h : l.lookup k = some v) : (k, v) ∈ l := by
  induction l with
  | nil => simp at h
  | cons p l ih =>
    obtain ⟨a, b⟩ := p
    simp only [List.lookup_cons] at h
    split at h
    · rename_i heq
      simp only [beq_iff_eq] at heq
      cases h
      simp [heq]
    · exact List.mem_cons_of_mem _ (ih h)

/-- Every unit of `unitMap` is a non-empty string without digit or period and stands for
at least one nanosecond. -/
theorem unitMap_unit (u : String) (unit : Nat) (h : unitMap.lookup u = some unit) :
    u.data ≠ [] ∧ (∀ c ∈ u.data, isNumChar c = false) ∧ 1 ≤ unit := by
  have hall : ∀ p ∈ unitMap,
      p.1.data ≠ [] ∧ (∀ c ∈ p.1.data, isNumChar c = false) ∧ 1 ≤ p.2 := by decide
  exact hall (u, unit) (lookup_mem u unit unitMap h)

theorem foldl_digit_ge (ds : List Char) (x : Nat) :
    x ≤ ds.foldl (fun x c => x * 10 + (c.toNat - 48)) x := by
  induction ds generalizing x with
  | nil => exact Nat.le_refl _
  | cons c cs ih =>
    simp only [List.foldl_cons]
    exact Nat.le_trans (by omega) (ih _)

/-- On digits followed by a character that is no digit, `leadingInt` returns the number the
digits continue `x` to, and what follows, as long as the number is at most `2 ^ 63`. -/
theorem leadingInt_digits (ds rest : List Char) (x : Nat)
    (hds : ∀ c ∈ ds, isDigit c = true)
    (hrest : ∀ c, rest.head? = some c → isDigit c = false)
    (hle : ds.foldl (fun x c => x * 10 + (c.toNat - 48)) x ≤ 2 ^ 63) :
    leadingInt (ds ++ rest) x =
      some (ds.foldl (fun x c => x * 10 + (c.toNat - 48)) x, rest) := by
  induction ds generalizing x with
  | nil =>
    simp only [List.nil_append, List.foldl_nil]
    cases rest with
    | nil => rfl
    | cons c cs =>
      have hc := hrest c rfl
      simp only [isDigit, decide_eq_false_iff_not] at hc
      simp only [leadingInt]
      rw [if_pos (by omega)]
  | cons c cs ih =>
    have hc : isDigit c = true := hds c (List.mem_cons_self _ _)
    simp only [isDigit, decide_eq_true_eq] at hc
    simp only [List.foldl_cons] at hle ⊢
    have hge := foldl_digit_ge cs (x * 10 + (c.toNat - 48))
    have hx : x * 10 + (c.toNat - 48) ≤ 2 ^ 63 := Nat.le_trans hge hle
    have h63 : (2 : Nat) ^ 63 = 9223372036854775808 := by norm_num
    have h64 : (2 : Nat) ^ 64 = 18446744073709551616 := by norm_num
    simp only [List.cons_append, leadingInt]
    rw [if_neg (by omega), if_neg (by rw [h63] at hx ⊢; omega)]
    have hmod : (x * 10 + c.toNat - 48) % 2 ^ 64 = x * 10 + (c.toNat - 48) := by
      rw [h63] at hx
      rw [h64]
      omega
    simp only [hmod]
    rw [if_neg (by omega)]
    exact ih _ (fun c hc => hds c (List.mem_cons_of_mem _ hc)) hle

theorem takeWhile_append_stop (p : Char → Bool) (u rest : List Char)
    (hu : ∀ c ∈ u, p c = true) (hrest : ∀ c, rest.head? = some c → p c = false) :
    (u ++ rest).takeWhile p = u ∧ (u ++ rest).dropWhile p = rest := by
  induction u with
  | nil =>
    cases rest with
    | nil => simp
    | cons c cs =>
      have hc := hrest c rfl
      simp [List.takeWhile, List.dropWhile, hc]
  | cons a as ih =>
    have ha := hu a (List.mem_cons_self _ _)
    obtain ⟨h1, h2⟩ := ih (fun c hc => hu c (List.mem_cons_of_mem _ hc))
    simp [List.takeWhile, List.dropWhile, ha, h1, h2]

/-- The fraction part of a round is empty when the rest begins with no period. -/
theorem fractionPart_no_period (s1 : List Char)
    (h : ∀ c, s1.head? = some c → c ≠ '.') :
    fractionPart s1 = (0, 0, s1, false) := by
  unfold fractionPart
  split
  · rename_i s1'
    exact absurd rfl (h '.' rfl)
  · rfl

/-- The arithmetic of a round without fraction and without overflow is the exact sum. -/
theorem addComponent_exact (rt : Runtime) (d v kept unit : Nat) (hunit : 1 ≤ unit)
    (hsum : d + v * unit ≤ 2 ^ 63) :
    addComponent rt d v 0 kept unit = some (d + v * unit) := by
  have h63 : (2 : Nat) ^ 63 = 9223372036854775808 := by norm_num
  have h64 : (2 : Nat) ^ 64 = 18446744073709551616 := by norm_num
  have hv : v * unit ≤ 2 ^ 63 := by omega
  have hdiv : ¬ v > 2 ^ 63 / unit := by
    have := (Nat.le_div_iff_mul_le (Nat.lt_of_lt_of_le Nat.zero_lt_one hunit)).mpr hv
    omega
  have hm1 : v * unit % 2 ^ 64 = v * unit := by
    apply Nat.mod_eq_of_lt
    rw [h63] at hv; rw [h64]; omega
  have hm2 : (d + v * unit) % 2 ^ 64 = d + v * unit := by
    apply Nat.mod_eq_of_lt
    rw [h63] at hsum; rw [h64]; omega
  simp only [addComponent, if_neg hdiv, hm1, Nat.lt_irrefl, gt_iff_lt, if_false, false_and,
    hm2, if_neg (Nat.not_lt.mpr hsum)]

/-- A round of the duration loop on a component, digits then a unit, before the empty
string or a further number: the component is consumed and its value added, as long as the
sum does not exceed `2 ^ 63`. -/
theorem parseDurationRound_component (rt : Runtime) (ds : List Char) (u : String)
    (rest : List Char) (d unit : Nat)
    (hne : ds ≠ []) (hds : ∀ c ∈ ds, isDigit c = true)
    (hu : unitMap.lookup u = some unit)
    (hrest : ∀ c, rest.head? = some c → isNumChar c = true)
    (hsum : d + decimalValue ds * unit ≤ 2 ^ 63) :
    parseDurationRound rt (ds ++ u.data ++ rest) d =
      some (rest, d + decimalValue ds * unit) := by
  obtain ⟨hud, hun, h1⟩ := unitMap_unit u unit hu
  obtain ⟨c, cs, hcs⟩ := List.exists_cons_of_ne_nil hne
  obtain ⟨a, as, has⟩ := List.exists_cons_of_ne_nil hud
  have ha : isNumChar a = false := hun a (by rw [has]; exact List.mem_cons_self _ _)
  have hhead : ¬ ¬ ((ds ++ u.data ++ rest).head?.map isNumChar = some true) := by
    rw [hcs]
    simp [isDigit_isNumChar c (hds c (by rw [hcs]; exact List.mem_cons_self _ _))]
  have hval : decimalValue ds ≤ 2 ^ 63 := by
    have := Nat.le_mul_of_pos_right (decimalValue ds) (Nat.lt_of_lt_of_le Nat.zero_lt_one h1)
    omega
  have hli : leadingInt (ds ++ u.data ++ rest) 0 = some (decimalValue ds, u.data ++ rest) := by
    rw [List.append_assoc]
    apply leadingInt_digits ds (u.data ++ rest) 0 hds _ hval
    intro x hx
    rw [has] at hx
    simp only [List.cons_append, List.head?_cons, Option.some.injEq] at hx
    subst hx
    cases hd : isDigit a with
    | false => rfl
    | true => rw [isDigit_isNumChar a hd] at ha; cases ha
  have hfrac : fractionPart (u.data ++ rest) = (0, 0, u.data ++ rest, false) := by
    apply fractionPart_no_period
    intro x hx hdot
    rw [has] at hx
    simp only [List.cons_append, List.head?_cons, Option.some.injEq] at hx
    subst hx
    subst hdot
    revert ha
    decide
  obtain ⟨htake, hdrop⟩ := takeWhile_append_stop (fun c => decide ¬ isNumChar c = true)
    u.data rest (fun x hx => by simp [hun x hx]) (fun x hx => by simp [hrest x hx])
  have hpre : ¬ (¬ ((ds ++ u.data ++ rest).length ≠ (u.data ++ rest).length) ∧
      ¬ (false = true)) := by
    rw [hcs]
    simp only [List.length_append, List.length_cons]
    omega
  unfold parseDurationRound
  rw [if_neg hhead, hli]
  simp only [hfrac]
  rw [if_neg hpre]
  simp only [htake, hdrop]
  rw [if_neg hud]
  have hlook : unitMap.lookup (String.mk u.data) = some unit := hu
  rw [hlook]
  simp only [addComponent_exact rt d (decimalValue ds) 0 unit h1 hsum]

theorem renderComponents_head (cs : List (List Char × String))
    (hwf : wellFormedComponents cs = true) :
    ∀ c, (renderComponents cs).head? = some c → isNumChar c = true := by
  intro c hc
  cases cs with
  | nil => simp [renderComponents] at hc
  | cons p rest =>
    obtain ⟨ds, u⟩ := p
    simp only [wellFormedComponents, List.all_cons, Bool.and_eq_true, decide_eq_true_eq,
      List.all_eq_true] at hwf
    obtain ⟨a, as, has⟩ := List.exists_cons_of_ne_nil hwf.1.1.1
    rw [renderComponents, has] at hc
    simp only [List.cons_append, List.head?_cons, Option.some.injEq] at hc
    subst hc
    exact isDigit_isNumChar a (hwf.1.1.2 a (by rw [has]; exact List.mem_cons_self _ _))

/-- The duration loop on a literal of well-formed components adds up the components, as
long as the sum does not exceed `2 ^ 63`. -/
theorem parseDurationLoop_components (rt : Runtime) (cs : List (List Char × String))
    (fuel d : Nat) (hwf : wellFormedComponents cs = true)
    (hfuel : (renderComponents cs).length < fuel)
    (hsum : d + componentsNanos cs ≤ 2 ^ 63) :
    parseDurationLoop rt fuel (renderComponents cs) d = some (d + componentsNanos cs) := by
  induction cs generalizing fuel d with
  | nil =>
    cases fuel with
    | zero => omega
    | succ k => simp [renderComponents, componentsNanos, parseDurationLoop]
  | cons p rest ih =>
    obtain ⟨ds, u⟩ := p
    have hwf1 := hwf
    simp only [wellFormedComponents, List.all_cons, Bool.and_eq_true, decide_eq_true_eq,
      List.all_eq_true] at hwf1
    obtain ⟨⟨⟨hne, hds⟩, hu⟩, hrestwf⟩ := hwf1
    have hwfrest : wellFormedComponents rest = true := by
      simpa [wellFormedComponents, List.all_eq_true] using hrestwf
    obtain ⟨unit, hunit⟩ := Option.isSome_iff_exists.mp hu
    simp only [componentsNanos, hunit, Option.getD_some] at hsum ⊢
    cases fuel with
    | zero => omega
    | succ k =>
      have hround := parseDurationRound_component rt ds u (renderComponents rest) d unit hne
        hds hunit (renderComponents_head rest hwfrest) (by omega)
      have hnonempty : renderComponents ((ds, u) :: rest) ≠ [] := by
        obtain ⟨a, as, has⟩ := List.exists_cons_of_ne_nil hne
        simp [renderComponents, has]
      simp only [parseDurationLoop, if_neg hnonempty]
      rw [show renderComponents ((ds, u) :: rest) = ds ++ u.data ++ renderComponents rest
        from rfl, hround]
      simp only
      rw [ih k (d + decimalValue ds * unit) hwfrest ?_ (by omega)]
      · rw [Nat.add_assoc]
      · simp only [renderComponents, List.length_append] at hfuel
        have hpos : 0 < ds.length := List.length_pos.mpr hne
        omega

/-- The duration parser on an unsigned literal of well-formed components returns the sum
of the components, as long as the sum fits a duration. -/
theorem ParseDuration_components (rt : Runtime) (s : String)
    (cs : List (List Char × String)) (hs : s.data = renderComponents cs)
    (hne : cs ≠ []) (hwf : wellFormedComponents cs = true)
    (hsum : componentsNanos cs ≤ 2 ^ 63 - 1) :
    ParseDuration rt s = some (componentsNanos cs : Int) := by
  obtain ⟨p, rest, hp⟩ := List.exists_cons_of_ne_nil hne
  obtain ⟨ds, u⟩ := p
  have hwf1 := hwf
  rw [hp] at hwf1
  simp only [wellFormedComponents, List.all_cons, Bool.and_eq_true, decide_eq_true_eq,
    List.all_eq_true] at hwf1
  obtain ⟨⟨⟨hdne, hds⟩, hu⟩, _⟩ := hwf1
  obtain ⟨unit, hunit⟩ := Option.isSome_iff_exists.mp hu
  obtain ⟨hud, _, _⟩ := unitMap_unit u unit hunit
  obtain ⟨a, as, has⟩ := List.exists_cons_of_ne_nil hdne
  obtain ⟨b, bs, hbs⟩ := List.exists_cons_of_ne_nil hud
  have hadig : isDigit a = true := hds a (by rw [has]; exact List.mem_cons_self _ _)
  have hdata : s.data = a :: (as ++ b :: bs ++ renderComponents rest) := by
    rw [hs, hp, renderComponents, has, hbs]
    simp
  have hstrip : (match s.data with
      | c :: rest => if c = '-' ∨ c = '+' then rest else c :: rest
      | [] => []) = renderComponents cs := by
    rw [hdata]
    simp only
    rw [if_neg (isDigit_not_sign a hadig), ← hdata, hs]
  have hneg : ¬ (s.data.head? = some '-') := by
    rw [hdata]
    simp only [List.head?_cons, Option.some.injEq]
    intro h
    exact isDigit_not_sign a hadig (Or.inl h)
  have h0 : renderComponents cs ≠ ['0'] := by
    rw [← hs, hdata]
    intro h
    have := congrArg List.length h
    simp at this
  have hnil : renderComponents cs ≠ [] := by
    rw [← hs, hdata]
    simp
  have h63 : (2 : Nat) ^ 63 = 9223372036854775808 := by norm_num
  have hloop := parseDurationLoop_components rt cs ((renderComponents cs).length + 1) 0 hwf
    (Nat.lt_succ_self _) (by rw [h63] at hsum ⊢; omega)
  unfold ParseDuration
  simp only [hstrip, hloop, Nat.zero_add]
  rw [if_neg h0, if_neg hnil]
  simp only [hneg, decide_False, Bool.false_eq_true, if_false]
  rw [if_neg (by omega)]

/-! ## C11 -/

/-- A literal of well-formed components begins with a digit and is longer than one
character. -/
theorem renderComponents_shape (cs : List (List Char × String)) (hne : cs ≠ [])
    (hwf : wellFormedComponents cs = true) :
    ∃ a tail, renderComponents cs = a :: tail ∧ isDigit a = true ∧ tail ≠ [] := by
  obtain ⟨p, rest, hp⟩ := List.exists_cons_of_ne_nil hne
  obtain ⟨ds, u⟩ := p
  subst hp
  simp only [wellFormedComponents, List.all_cons, Bool.and_eq_true, decide_eq_true_eq,
    List.all_eq_true] at hwf
  obtain ⟨⟨⟨hdne, hds⟩, hu⟩, _⟩ := hwf
  obtain ⟨unit, hunit⟩ := Option.isSome_iff_exists.mp hu
  obtain ⟨hud, _, _⟩ := unitMap_unit u unit hunit
  obtain ⟨a, as, has⟩ := List.exists_cons_of_ne_nil hdne
  obtain ⟨b, bs, hbs⟩ := List.exists_cons_of_ne_nil hud
  refine ⟨a, as ++ b :: bs ++ renderComponents rest, ?_,
    hds a (by rw [has]; exact List.mem_cons_self _ _), by simp⟩
  rw [renderComponents, has, hbs]
  simp

theorem wrapInt_neg_uint64 (d : Nat) (h : d ≤ 2 ^ 63) :
    wrapInt 64 (-(wrapInt 64 (d : Int))) = -(d : Int) := by
  have h63 : (2 : Nat) ^ 63 = 9223372036854775808 := by norm_num
  rw [h63] at h
  unfold wrapInt
  have e1 : (2 : Int) ^ (64 - 1) = 9223372036854775808 := by norm_num
  have e2 : (2 : Int) ^ 64 = 18446744073709551616 := by norm_num
  rw [e1, e2]
  omega

/-- The duration parser on a literal of well-formed components after an optional sign
returns the sum of the components, negated after `-`, as long as it fits a duration. -/
theorem ParseDuration_signed_components (rt : Runtime) (s : String) (sign : List Char)
    (cs : List (List Char × String)) (hs : s.data = sign ++ renderComponents cs)
    (hsign : sign = [] ∨ sign = ['+'] ∨ sign = ['-'])
    (hne : cs ≠ []) (hwf : wellFormedComponents cs = true)
    (hsum : componentsNanos cs ≤ (if sign = ['-'] then 2 ^ 63 else 2 ^ 63 - 1)) :
    ParseDuration rt s = some (signedNanos sign cs) := by
  obtain ⟨a, tail, hshape, hadig, htail⟩ := renderComponents_shape cs hne hwf
  have hns := isDigit_not_sign a hadig
  have hstrip : (match s.data with
      | c :: rest => if c = '-' ∨ c = '+' then rest else c :: rest
      | [] => []) = renderComponents cs := by
    rw [hs]
    rcases hsign with h | h | h
    · subst h
      rw [List.nil_append, hshape]
      simp only
      rw [if_neg hns]
    · subst h; simp
    · subst h; simp
  have hneg : (s.data.head? = some '-') ↔ sign = ['-'] := by
    rw [hs]
    rcases hsign with h | h | h
    · subst h
      rw [List.nil_append, hshape]
      simp only [List.head?_cons, Option.some.injEq]
      constructor
      · intro h; exact absurd (Or.inl h) hns
      · intro h; cases h
    · subst h
      simp only [List.cons_append, List.head?_cons, Option.some.injEq]
      constructor
      · intro h; revert h; decide
      · intro h; revert h; decide
    · subst h
      simp
  have h0 : renderComponents cs ≠ ['0'] := by
    rw [hshape]
    intro h
    simp only [List.cons.injEq] at h
    exact htail h.2
  have hnil : renderComponents cs ≠ [] := by
    rw [hshape]
    simp
  have h63 : (2 : Nat) ^ 63 = 9223372036854775808 := by norm_num
  have hle : componentsNanos cs ≤ 2 ^ 63 := by
    split at hsum
    · exact hsum
    · omega
  have hloop := parseDurationLoop_components rt cs ((renderComponents cs).length + 1) 0 hwf
    (Nat.lt_succ_self _) (by omega)
  unfold ParseDuration
  simp only [hstrip, hloop, Nat.zero_add]
  rw [if_neg h0, if_neg hnil]
  by_cases hsg : sign = ['-']
  · have hn : s.data.head? = some '-' := hneg.mpr hsg
    simp only [hn, decide_True, if_true, signedNanos, hsg, wrapInt_neg_uint64 _ hle]
  · have hn : ¬ s.data.head? = some '-' := fun h => hsg (hneg.mp h)
    rw [if_neg hsg] at hsum
    simp only [hn, decide_False, Bool.false_eq_true, if_false, signedNanos, hsg]
    rw [if_neg (by omega)]

/-- C11 fails as stated on three inputs. A settable duration field with the default `1s`
and no environment key keeps its value 5. With `PORT=abc` the call fails at the integer
field `Port`, and the duration field `Timeout` after it, default `1s` and variable unset,
keeps its value 5. And with `TIMEOUT=9223372036854775808ns`, a literal of one number-unit
component whose sum is `2 ^ 63`, the field does not end up holding the sum: the call fails
and the field keeps its value 5. -/
theorem C11_counterexample :
    (exTimeoutNoKey.typ = .Duration ∧ exTimeoutNoKey.CanSet = true ∧
      exTimeoutNoKey.defaultTag = some "1s" ∧
      LoadFromEnv rt64 envNone (.structPointer [exTimeoutNoKey]) =
        ⟨none, .structPointer [exTimeoutNoKey], []⟩ ∧
      exTimeoutNoKey.value = .int 5) ∧
    (exPortTimeout[1]? = some exTimeout ∧ exTimeout.typ = .Duration ∧
      exTimeout.CanSet = true ∧ exTimeout.defaultTag = some "1s" ∧
      envPortAbc "TIMEOUT" = none ∧
      LoadFromEnv rt64 envPortAbc (.structPointer exPortTimeout) =
        ⟨some "error setting field Port: invalid integer format: abc",
          .structPointer exPortTimeout, ["PORT"]⟩ ∧
      exTimeout.value = .int 5) ∧
    (resolved envTimeoutOverflow exTimeout = "9223372036854775808ns" ∧
      (resolved envTimeoutOverflow exTimeout).data =
        renderComponents [("9223372036854775808".data, "ns")] ∧
      wellFormedComponents [("9223372036854775808".data, "ns")] = true ∧
      componentsNanos [("9223372036854775808".data, "ns")] = 2 ^ 63 ∧
      LoadFromEnv rt64 envTimeoutOverflow (.structPointer [exTimeout]) =
        ⟨some "error setting field Timeout: invalid duration format: 9223372036854775808ns",
          .structPointer [exTimeout], ["TIMEOUT"]⟩) := by
  decide

/-- C11 (amended): for every settable field of type `time.Duration` with an environment
key that `LoadFromEnv` reaches (the fields before it raise no error), the resolved string
goes to the duration parser and to no other. When the parser accepts it the field ends up
holding the parser's result, without an error for the field; when the parser rejects it
the call fails with "error setting field NAME: invalid duration format: RAW" and the field
and those after it are unchanged. When the string is a literal of number-unit components
(digits and a unit of `unitMap` each) after an optional sign, and the sum fits a duration
(at most `2 ^ 63 - 1` nanoseconds, `2 ^ 63` after `-`), the parser's result is the sum of
the components, negated after `-`. With the default `1s` and the variable unset the field
holds 1000000000, and with the variable set to `2h30m` it holds 9000000000000. -/
theorem C11_duration_sum_of_components (rt : Runtime) (env : Environ)
    (pre post : List StructField) (f : StructField)
    (hreach : (LoadFromEnv rt env (.structPointer pre)).err = none)
    (hkey : f.bindable = true) (hset : f.CanSet = true) (htyp : f.typ = .Duration) :
    (∀ d : Int, ParseDuration rt (resolved env f) = some d →
      (LoadFromEnv rt env (.structPointer (pre ++ f :: post))).config.fields[pre.length]? =
        some { f with value := .int d } ∧
      (LoadFromEnv rt env (.structPointer (pre ++ f :: post))).err =
        (LoadFromEnv rt env (.structPointer post)).err) ∧
    (ParseDuration rt (resolved env f) = none →
      (LoadFromEnv rt env (.structPointer (pre ++ f :: post))).err =
        some ("error setting field " ++ f.Name ++ ": invalid duration format: " ++
          resolved env f) ∧
      (LoadFromEnv rt env (.structPointer (pre ++ f :: post))).config.fields.drop
        pre.length = f :: post) ∧
    (∀ (sign : List Char) (cs : List (List Char × String)),
      (sign = [] ∨ sign = ['+'] ∨ sign = ['-']) → cs ≠ [] →
      wellFormedComponents cs = true →
      componentsNanos cs ≤ (if sign = ['-'] then 2 ^ 63 else 2 ^ 63 - 1) →
      (resolved env f).data = sign ++ renderComponents cs →
      (LoadFromEnv rt env (.structPointer (pre ++ f :: post))).config.fields[pre.length]? =
        some { f with value := .int (signedNanos sign cs) } ∧
      (LoadFromEnv rt env (.structPointer (pre ++ f :: post))).err =
        (LoadFromEnv rt env (.structPointer post)).err) ∧
    (env (tagGet f.envTag) = none → f.defaultTag = some "1s" →
      (LoadFromEnv rt env (.structPointer (pre ++ f :: post))).config.fields[pre.length]? =
        some { f with value := .int 1000000000 } ∧
      (LoadFromEnv rt env (.structPointer (pre ++ f :: post))).err =
        (LoadFromEnv rt env (.structPointer post)).err) ∧
    (env (tagGet f.envTag) = some "2h30m" →
      (LoadFromEnv rt env (.structPointer (pre ++ f :: post))).config.fields[pre.length]? =
        some { f with value := .int 9000000000000 } ∧
      (LoadFromEnv rt env (.structPointer (pre ++ f :: post))).err =
        (LoadFromEnv rt env (.structPointer post)).err) := by
  have hacc : ∀ d : Int, ParseDuration rt (resolved env f) = some d →
      (LoadFromEnv rt env (.structPointer (pre ++ f :: post))).config.fields[pre.length]? =
        some { f with value := .int d } ∧
      (LoadFromEnv rt env (.structPointer (pre ++ f :: post))).err =
        (LoadFromEnv rt env (.structPointer post)).err := by
    intro d hd
    have hs : setFieldValue rt f (resolved env f) = .ok { f with value := .int d } := by
      rw [setFieldValue_Duration rt f _ hset htyp, hd]
    exact LoadFromEnv_reached_ok rt env pre post f _ hreach hkey hs
  have hgen : ∀ (sign : List Char) (cs : List (List Char × String)),
      (sign = [] ∨ sign = ['+'] ∨ sign = ['-']) → cs ≠ [] →
      wellFormedComponents cs = true →
      componentsNanos cs ≤ (if sign = ['-'] then 2 ^ 63 else 2 ^ 63 - 1) →
      (resolved env f).data = sign ++ renderComponents cs →
      (LoadFromEnv rt env (.structPointer (pre ++ f :: post))).config.fields[pre.length]? =
        some { f with value := .int (signedNanos sign cs) } ∧
      (LoadFromEnv rt env (.structPointer (pre ++ f :: post))).err =
        (LoadFromEnv rt env (.structPointer post)).err := by
    intro sign cs hsign hne hwf hsum hdata
    exact hacc _ (ParseDuration_signed_components rt _ sign cs hdata hsign hne hwf hsum)
  refine ⟨hacc, ?_, hgen, ?_, ?_⟩
  · intro hrej
    have hs : setFieldValue rt f (resolved env f) =
        .error ("invalid duration format: " ++ resolved env f) := by
      rw [setFieldValue_Duration rt f _ hset htyp, hrej]
    obtain ⟨h1, h2⟩ := LoadFromEnv_reached_error rt env pre post f _ hreach hkey hs
    refine ⟨?_, h2⟩
    rw [h1]
    simp [String.ext_iff, String.data_append]
  · intro henv hdef
    have hres : resolved env f = "1s" := by
      rw [resolved_default env f (Or.inl henv), hdef]
      rfl
    have h := hgen [] [(['1'], "s")] (Or.inl rfl) (by decide) (by decide) (by decide)
      (by rw [hres]; rfl)
    have hval : signedNanos [] [(['1'], "s")] = 1000000000 := by decide
    rw [hval] at h
    exact h
  · intro henv
    have hres : resolved env f = "2h30m" := resolved_set env f _ henv (by decide)
    have h := hgen [] [(['2'], "h"), (['3', '0'], "m")] (Or.inl rfl) (by decide) (by decide)
      (by decide) (by rw [hres]; rfl)
    have hval : signedNanos [] [(['2'], "h"), (['3', '0'], "m")] = 9000000000000 := by
      decide
    rw [hval] at h
    exact h

/-- C11 at the duration field `Timeout` with the default `1s`: with no variable set it
holds one second, with `TIMEOUT=2h30m` two and a half hours. -/
theorem C11_duration_sum_of_components_witness :
    ((LoadFromEnv rt64 envNone (.structPointer ([] ++ exTimeout :: []))).config.fields[
          ([] : List StructField).length]? =
        some { exTimeout with value := .int 1000000000 } ∧
      (LoadFromEnv rt64 envNone (.structPointer ([] ++ exTimeout :: []))).err =
        (LoadFromEnv rt64 envNone (.structPointer [])).err) ∧
    ((LoadFromEnv rt64 envTimeout (.structPointer ([] ++ exTimeout :: []))).config.fields[
          ([] : List StructField).length]? =
        some { exTimeout with value := .int 9000000000000 } ∧
      (LoadFromEnv rt64 envTimeout (.structPointer ([] ++ exTimeout :: []))).err =
        (LoadFromEnv rt64 envTimeout (.structPointer [])).err) ∧
    (LoadFromEnv rt64 envTimeout (.structPointer [])).err = none :=
  ⟨(C11_duration_sum_of_components rt64 envNone [] [] exTimeout (by decide) (by decide)
      (by decide) (by decide)).2.2.2.1 (by decide) (by decide),
    (C11_duration_sum_of_components rt64 envTimeout [] [] exTimeout (by decide) (by decide)
      (by decide) (by decide)).2.2.2.2 (by decide),
    by decide⟩

/-! ## The integer parser on decimal literals -/

/-- When the digit loop of `ParseUint` returns no error on a string of digits, its value
is the number the digits continue `n` to. -/
theorem parseUintLoop_ok_value (ds : List Char) (n v : Nat)
    (hds : ∀ c ∈ ds, isDigit c = true) (h : parseUintLoop 64 ds n = (v, none)) :
    v = ds.foldl (fun x c => x * 10 + (c.toNat - 48)) n := by
  induction ds generalizing n with
  | nil =>
    simp only [parseUintLoop, Prod.mk.injEq, and_true] at h
    simp [h]
  | cons c cs ih =>
    have hc : isDigit c = true := hds c (List.mem_cons_self _ _)
    rw [parseUintLoop_digit 64 c cs n hc] at h
    simp only [isDigit, decide_eq_true_eq] at hc
    have h64 : (2 : Nat) ^ 64 = 18446744073709551616 := by norm_num
    split at h
    · simp at h
    · rename_i h1
      split at h
      · simp at h
      · rename_i h2
        simp only [List.foldl_cons]
        have hn1 : (n * 10 % 2 ^ 64 + (c.toNat - 48)) % 2 ^ 64 = n * 10 + (c.toNat - 48) := by
          rw [h64] at h1 h2 ⊢
          omega
        rw [hn1] at h
        exact ih _ (fun c hc => hds c (List.mem_cons_of_mem _ hc)) h

/-- When the integer parser returns no error on a decimal literal, an optional sign and
digits, its value is the integer the literal denotes, and it fits 64 bits. -/
theorem ParseInt_ok_value (s : String) (sign ds : List Char)
    (hs : s.data = sign ++ ds) (hsign : sign = [] ∨ sign = ['+'] ∨ sign = ['-'])
    (hds : ∀ c ∈ ds, isDigit c = true) (h : (ParseInt s 64).2 = none) :
    (ParseInt s 64).1 = literalValue sign ds ∧
      -(2 : Int) ^ 63 ≤ (ParseInt s 64).1 ∧ (ParseInt s 64).1 < 2 ^ 63 := by
  have hkey : ∀ (c : Char) (rest : List Char), s.data = c :: rest →
      (if c = '+' ∨ c = '-' then rest else c :: rest) = ds → (c = '-' ↔ sign = ['-']) →
      (ParseInt s 64).1 = literalValue sign ds ∧
      -(2 : Int) ^ 63 ≤ (ParseInt s 64).1 ∧ (ParseInt s 64).1 < 2 ^ 63 := by
    intro c rest hdata hdigits hneg
    unfold ParseInt at h ⊢
    rw [hdata] at h ⊢
    simp only [hdigits, ParseUint] at h ⊢
    by_cases hnil : ds = []
    · simp [hnil] at h
    · simp only [if_neg hnil] at h ⊢
      rcases hloop : parseUintLoop 64 ds 0 with ⟨un, err⟩
      rw [hloop] at h
      simp only at h ⊢
      cases err with
      | some e =>
        cases e with
        | ErrSyntax => simp at h
        | ErrRange =>
          have hun : un = 2 ^ 64 - 1 := by
            have := parseUintLoop_range 64 ds 0 (by rw [hloop])
            rw [hloop] at this
            exact this
          subst hun
          by_cases hc : c = '-' <;> simp [hc] at h
      | none =>
        have hv := parseUintLoop_ok_value ds 0 un hds hloop
        have hval : un = decimalValue ds := hv
        have h63 : (2 : Nat) ^ (64 - 1) = 9223372036854775808 := by norm_num
        have h63i : (2 : Int) ^ 63 = 9223372036854775808 := by norm_num
        simp only [reduceCtorEq, if_false, h63] at h ⊢
        by_cases hc : c = '-'
        · have hsg : sign = ['-'] := hneg.mp hc
          simp only [hc, not_true_eq_false, false_and, if_false, true_and] at h ⊢
          by_cases hle : un > 9223372036854775808
          · simp [hle] at h
          · simp only [if_neg hle, literalValue, hsg, if_true, h63i, ← hval]
            refine ⟨trivial, ?_, ?_⟩ <;> omega
        · have hsg : ¬ sign = ['-'] := fun hh => hc (hneg.mpr hh)
          simp only [hc, not_false_eq_true, true_and, false_and, if_false] at h ⊢
          by_cases hle : un ≥ 9223372036854775808
          · simp [hle] at h
          · simp only [if_neg hle, literalValue, hsg, if_false, h63i, ← hval]
            refine ⟨trivial, ?_, ?_⟩ <;> omega
  rcases hsign with h1 | h1 | h1
  · subst h1
    cases hds0 : ds with
    | nil =>
      exfalso
      rw [hds0] at hs
      simp only [List.append_nil] at hs
      have : s = "" := String.ext hs
      rw [this] at h
      revert h
      decide
    | cons c rest =>
      have hcd : isDigit c = true := hds c (by rw [hds0]; exact List.mem_cons_self _ _)
      have hns := isDigit_not_sign c hcd
      rw [← hds0]
      refine hkey c rest (by rw [hs, hds0]; rfl) ?_ ?_
      · rw [if_neg (fun h => hns (Or.symm h)), hds0]
      · constructor
        · intro hc; exact absurd (Or.inl hc) hns
        · intro hh; cases hh
  · subst h1
    refine hkey '+' ds (by rw [hs]; rfl) (by simp) ?_
    constructor
    · intro hc; revert hc; decide
    · intro hh; revert hh; decide
  · subst h1
    refine hkey '-' ds (by rw [hs]; rfl) (by simp) ?_
    exact ⟨fun _ => rfl, fun _ => rfl⟩

/-- What a settable signed-integer field that is no duration holds after a call that
returns no error, when its resolved string is a decimal literal of the integer `n`: the
conversion of `n` to the field's width, which is `n` itself for an int64 field. -/
theorem signedInt_field_value (rt : Runtime) (env : Environ) (fields : List StructField)
    (i : Nat) (f : StructField) (sign ds : List Char)
    (hf : fields[i]? = some f) (hkey : f.bindable = true) (hset : f.CanSet = true)
    (hk : signedIntKind f.typ.kind = true) (ht : f.typ ≠ .Duration)
    (hs : (resolved env f).data = sign ++ ds)
    (hsign : sign = [] ∨ sign = ['+'] ∨ sign = ['-'])
    (hds : ∀ c ∈ ds, isDigit c = true)
    (hok : (LoadFromEnv rt env (.structPointer fields)).err = none) :
    (LoadFromEnv rt env (.structPointer fields)).config.fields[i]? =
        some { f with
          value := .int (wrapInt (intBits rt f.typ.kind) (literalValue sign ds)) } ∧
    (f.typ.kind = .int64 →
      (LoadFromEnv rt env (.structPointer fields)).config.fields[i]? =
        some { f with value := .int (literalValue sign ds) }) := by
  rw [LoadFromEnv_structPointer] at hok ⊢
  simp only at hok
  simp only [Config.fields]
  have hkk : tagGet f.envTag ≠ "" := by simpa [StructField.bindable] using hkey
  obtain ⟨f1, hs1, hg⟩ := bindFields_ok_get rt env _ hok i f hf hkk
  rw [setFieldValue_signedInt rt f _ hset hk ht] at hs1
  by_cases herr : (ParseInt (resolved env f) 64).2 = none
  · rw [if_pos herr] at hs1
    obtain ⟨hv, hlo, hhi⟩ := ParseInt_ok_value _ sign ds hs hsign hds herr
    rw [hv] at hs1 hlo hhi
    cases hs1
    refine ⟨hg, fun h64 => ?_⟩
    rw [hg, h64]
    have hw : ∀ n : Int, -(2 : Int) ^ 63 ≤ n → n < 2 ^ 63 → wrapInt 64 n = n := by
      intro n h1 h2
      unfold wrapInt
      have e1 : (2 : Int) ^ (64 - 1) = 9223372036854775808 := by norm_num
      have e2 : (2 : Int) ^ 64 = 18446744073709551616 := by norm_num
      have e3 : (2 : Int) ^ 63 = 9223372036854775808 := by norm_num
      rw [e1, e2]
      rw [e3] at h1 h2
      omega
    simp only [intBits, hw _ hlo hhi]
  · rw [if_neg herr] at hs1
    cases hs1

/-! ## C12 -/

/-- C12 fails on the code: `300` is a base-10 literal of 300, the call on a settable int8
field whose variable is `300` returns no error, and the field holds 44, not 300: the
string is parsed with bit size 64 and `SetInt` converts the result to the field's width. -/
theorem C12_int8_truncated :
    ParseInt "300" 64 = (300, none) ∧
    LoadFromEnv rt64 envLevel (.structPointer [exLevel]) =
      ⟨none, .structPointer [{ exLevel with value := .int 44 }], ["LEVEL"]⟩ := by
  decide

end envconfig
